import Mathlib

/-!
# A formal model of the ridership aggregation engine

This file is a shallow embedding, in Lean 4, of the core of
`RouteSummaryGenerator.py` from the AJM-RouteSummaries repository: the
row validator, the `RouteManager`/`Route`/`Stop` data model, the load
propagation pass (`buildLoad`), the Max-Load-by-Time projection
(`buildTotalsByTime`) and the status protocol of `generateSummary`.

Python dictionaries are modelled as insertion-ordered association lists,
Python's stable ascending `sort` as a stable insertion sort, loosely
typed worksheet cells as the tagged union `PyVal`, and Python code that
can raise an uncaught exception as functions into `Except PyErr`.
-/

/-- Loosely-typed worksheet cell values: integers, text, dates,
times and empty cells.  Dates are modelled as day indices and
times of day as minutes, which preserves their orderings. -/
inductive PyVal where
  | vint (n : Int)
  | vstr (s : String)
  | vdate (d : Nat)
  | vtime (t : Nat)
  | vnone
deriving DecidableEq

/-- Route direction enumeration (class `Direction`, lines 21-33). -/
inductive Direction where
  | IB | OB | NB | SB | EB | WB | LP | UN
deriving DecidableEq

/-- `stringToDirection` (lines 36-58): any string other than the seven
known codes, and any non-string value, maps to `UN`. -/
def stringToDirection (s : String) : Direction :=
  if s = "IB" then .IB
  else if s = "OB" then .OB
  else if s = "NB" then .NB
  else if s = "SB" then .SB
  else if s = "EB" then .EB
  else if s = "WB" then .WB
  else if s = "LP" then .LP
  else .UN

/-- `stringToDirection` applied to a raw cell value: in Python the
`==` comparisons with the code strings are `False` for every
non-string value, so those fall through to `UN`. -/
def stringToDirectionV : PyVal → Direction
  | .vstr s => stringToDirection s
  | _ => .UN

/-- A `datetime.datetime`: a calendar date (day index) plus a
time of day (minutes after midnight). -/
structure DT where
  date : Nat
  time : Nat
deriving DecidableEq

/-- The natural order on datetimes: by date, then time of day
(Python's default `sorted` on `datetime` objects). -/
def DT.leDT (a b : DT) : Bool :=
  decide (a.date < b.date) || (decide (a.date = b.date) && decide (a.time ≤ b.time))

/-- The `(time-of-day, date)` order used by
`self.times.sort(key=lambda x: (x.time(), x.date()))` (line 398). -/
def DT.leTD (a b : DT) : Bool :=
  decide (a.time < b.time) || (decide (a.time = b.time) && decide (a.date ≤ b.date))

/-- Ascending order on stop numbers, for `sorted(self.stops.keys())`. -/
def intLe (a b : Int) : Bool := decide (a ≤ b)

/-- Insert into a sorted list, keeping earlier elements before
later equal ones (the stable placement Python's `list.sort` uses). -/
def insertSorted (le : α → α → Bool) (a : α) : List α → List α
  | [] => [a]
  | b :: l => if le a b then a :: b :: l else b :: insertSorted le a l

/-- Stable insertion sort, modelling Python's `list.sort()` /
`sorted(...)` with the given ascending comparison. -/
def insSort (le : α → α → Bool) : List α → List α
  | [] => []
  | a :: l => insertSorted le a (insSort le l)

/-- Lookup in an insertion-ordered association list (Python `d[k]` /
`k in d`, returning `none` when the key is absent). -/
def alookup [DecidableEq κ] : List (κ × β) → κ → Option β
  | [], _ => none
  | (k, v) :: l, k' => if k' = k then some v else alookup l k'

/-- Python `d[k] = v`: replace the value in place when the key exists,
append a new entry at the end otherwise. -/
def aset [DecidableEq κ] (k : κ) (v : β) : List (κ × β) → List (κ × β)
  | [] => [(k, v)]
  | (k', v') :: l => if k = k' then (k, v) :: l else (k', v') :: aset k v l

/-- Uncaught Python exceptions that the modelled code can raise. -/
inductive PyErr where
  | typeError
  | nameError
  | keyError
  | valueError
deriving DecidableEq

/-- One observation record stored in `Stop.data` (lines 723-732):
`[run, arrival_time, schedule_time, offs, ons, load]`.  `run` is the
raw cell value; arrival and schedule times are the combined datetimes
built by `generateSummary`. -/
structure Obs where
  run : PyVal
  arrival : Option DT
  schedule : Option DT
  offs : Int
  ons : Int
  load : Int
deriving DecidableEq

/-- Class `Stop` (lines 701-732).  `data` is the insertion-ordered
dict from start-datetime to observation record; `street` and
`cross_street` are raw cells; `route` keeps the raw route cell. -/
structure Stop where
  route : PyVal
  stop_no : Int
  street : PyVal
  cross_street : PyVal
  descriptor : PyVal
  direction : Direction
  data : List (DT × Obs)
deriving DecidableEq

/-- `Stop.__init__` (lines 705-732). -/
def Stop.mkNew (route : PyVal) (stop_no : Int) (street cross_street : PyVal) : Stop :=
  { route := route, stop_no := stop_no, street := street,
    cross_street := cross_street, descriptor := .vstr "Descriptor Unset",
    direction := .UN, data := [] }

/-- `Stop.setRouteData` (lines 785-793). -/
def Stop.setRouteData (s : Stop) (description : PyVal) (direction : Direction) : Stop :=
  { s with descriptor := description, direction := direction }

/-- `Stop.addData` (lines 745-770): reject a duplicate datetime,
otherwise coerce `offs`/`ons` that are not non-negative integers to
`0` and store the record with `load = 0`. -/
def Stop.addData (s : Stop) (dt : DT) (run : PyVal) (arrival schedule : Option DT)
    (offs ons : PyVal) : Stop × Bool :=
  match alookup s.data dt with
  | some _ => (s, false)
  | none =>
    let offsI : Int := match offs with
      | .vint n => if 0 ≤ n then n else 0
      | _ => 0
    let onsI : Int := match ons with
      | .vint n => if 0 ≤ n then n else 0
      | _ => 0
    let o : Obs := { run := run, arrival := arrival, schedule := schedule,
                     offs := offsI, ons := onsI, load := 0 }
    ({ s with data := aset dt o s.data }, true)

/-- `Stop.setLoad` (lines 772-783): update the `load` field in place,
creating a fresh record `[None, None, None, 0, 0, load]` when no
observation exists for that datetime. -/
def Stop.setLoad (s : Stop) (dt : DT) (load : Int) : Stop :=
  match alookup s.data dt with
  | some o =>
    let o' : Obs := { o with load := load }
    { s with data := aset dt o' s.data }
  | none =>
    let o : Obs := { run := .vnone, arrival := none, schedule := none,
                     offs := 0, ons := 0, load := load }
    { s with data := aset dt o s.data }

/-- `Stop.getOffsAndOns` (lines 817-825): zeros when the datetime has
no observation. -/
def Stop.getOffsAndOns (s : Stop) (dt : DT) : Int × Int :=
  match alookup s.data dt with
  | none => (0, 0)
  | some o => (o.offs, o.ons)

/-- `Stop.getOffsOnsAndLoad` (lines 827-836). -/
def Stop.getOffsOnsAndLoad (s : Stop) (dt : DT) : Int × Int × Int :=
  match alookup s.data dt with
  | none => (0, 0, 0)
  | some o => (o.offs, o.ons, o.load)

/-- Class `Route` (lines 320-340).  `stops` is the dict from stop
number to `Stop`; `times` the list of start-datetimes kept sorted by
(time-of-day, date); `onboard` the dict from start-datetime to the
carried-over passenger count. -/
structure Route where
  route : PyVal
  direction : Direction
  stops : List (Int × Stop)
  times : List DT
  descriptor : PyVal
  timed_stops : List Int
  onboard : List (DT × Int)
  city_name : Option String
deriving DecidableEq

/-- `Route.__init__` (lines 324-340). -/
def Route.mkNew (route : PyVal) (direction : Direction) : Route :=
  { route := route, direction := direction, stops := [], times := [],
    descriptor := .vstr "Descriptor Unset", timed_stops := [],
    onboard := [], city_name := some "City Name Unset" }

/-- `Route.addStop` (lines 351-371): error and no-op when the stop
number already exists; otherwise append to (and re-sort) the timed
stop list when flagged, create the `Stop` and push the route
descriptor and direction onto it. -/
def Route.addStop (r : Route) (stop_no : Int) (street cross_street : PyVal)
    (is_timed : Bool) : Route :=
  if (alookup r.stops stop_no).isSome then r
  else
    let r := if is_timed
      then { r with timed_stops := insSort intLe (r.timed_stops ++ [stop_no]) }
      else r
    let s := (Stop.mkNew r.route stop_no street cross_street).setRouteData
      r.descriptor r.direction
    { r with stops := aset stop_no s r.stops }

/-- `Route.addData` (lines 373-412): fail when the stop does not
exist; otherwise register the datetime into `times` (kept sorted by
(time-of-day, date)), apply the onboard update when one is supplied
(last write wins; a conflicting overwrite only logs a warning), and
delegate the observation to the stop. -/
def Route.addData (r : Route) (stop_no : PyVal) (dt : DT) (run : PyVal)
    (arrival schedule : Option DT) (offs ons : PyVal) (onboard : Option Int) :
    Route × Bool :=
  match stop_no with
  | .vint k =>
    match alookup r.stops k with
    | none => (r, false)
    | some s =>
      let times' := if dt ∈ r.times then r.times
        else insSort DT.leTD (r.times ++ [dt])
      let onboard' := match onboard with
        | none => r.onboard
        | some v => aset dt v r.onboard
      let (s', ok) := s.addData dt run arrival schedule offs ons
      let r' := { r with times := times', onboard := onboard',
                         stops := aset k s' r.stops }
      (r', ok)
  | _ => (r, false)

/-- `Route.setRouteData` (lines 414-424): sets the descriptor, then
loops over the child stops calling
`self.stops[stop_no].setRouteData(description, direction)`.  The name
`direction` is unbound in that scope (neither a local nor a module
global), so the first loop iteration raises `NameError`; with no child
stops the loop body never runs and the call succeeds. -/
def Route.setRouteData (r : Route) (description : PyVal) : Except PyErr Route :=
  let r' := { r with descriptor := description }
  match r'.stops with
  | [] => .ok r'
  | _ :: _ => .error .nameError

/-- `Route.setCityName` (lines 426-432). -/
def Route.setCityName (r : Route) (name : Option String) : Route :=
  { r with city_name := name }

/-- `Route.onboardAt`: the starting load of a departure in
`Route.buildLoad` (lines 441-444) — the stored onboard value, `0`
when absent. -/
def Route.onboardAt (r : Route) (dt : DT) : Int :=
  match alookup r.onboard dt with
  | some v => v
  | none => 0

/-- `sorted(self.stops.keys())` (line 446). -/
def Route.sortedStopKeys (r : Route) : List Int :=
  insSort intLe (r.stops.map Prod.fst)

/-- The inner loop of `Route.buildLoad` (lines 446-454): visit the
stop numbers in ascending order, add `ons - offs` of the current
departure to the running load and write it back with `setLoad`.  The
below-zero check only logs a warning. -/
def propagateStops (dt : DT) : List Int → Int → List (Int × Stop) → List (Int × Stop)
  | [], _, stops => stops
  | k :: ks, cur, stops =>
    match alookup stops k with
    | none => propagateStops dt ks cur stops
    | some s =>
      let offOn := s.getOffsAndOns dt
      let cur' := cur + offOn.2 - offOn.1
      propagateStops dt ks cur' (aset k (s.setLoad dt cur') stops)

/-- `times_by_datetime = sorted(self.times)` (line 438): the order in
which `Route.buildLoad` visits the departures — Python's default
`datetime` comparison, i.e. ascending (date, time-of-day). -/
def Route.buildLoadOrder (r : Route) : List DT :=
  insSort DT.leDT r.times

/-- One iteration of the outer loop of `Route.buildLoad`
(lines 440-454): reset the running load to the stored onboard value
and sweep the stops of this departure. -/
def Route.stepDT (r : Route) (dt : DT) : Route :=
  { r with stops := propagateStops dt r.sortedStopKeys (r.onboardAt dt) r.stops }

/-- `Route.buildLoad` (lines 434-454). -/
def Route.buildLoad (r : Route) : Route :=
  r.buildLoadOrder.foldl Route.stepDT r

/-- One output row of the Max Load sheet: route cell, the displayed
time of day, and the three numeric cells (columns 5-7). -/
structure MLRow where
  routeNo : PyVal
  timeOfDay : Nat
  ons : Int
  offs : Int
  maxLoad : Int
deriving DecidableEq

/-- Concatenation of the lists `f a` in order (used to spell out the
nested `for datetime in search_datetimes: for stop_no in self.stops`
loops of `buildTotalsByTime`). -/
def flatList (f : α → List β) : List α → List β
  | [] => []
  | a :: l => f a ++ flatList f l

/-- The (offs, ons, load) triples read by the tally loops of
`Route.buildTotalsByTime` (lines 511-522) for one group of
departures: every stop of the route, for every datetime of the group,
in loop order. -/
def Route.groupCells (r : Route) (grp : List DT) : List (Int × Int × Int) :=
  flatList (fun dt => r.stops.map (fun p => p.2.getOffsOnsAndLoad dt)) grp

/-- One row of `Route.buildTotalsByTime` (lines 506-532): summed offs
and ons over the group, and the running maximum load starting from
`max_load = 0` with `if current_load > max_load`.  The displayed time
is taken from the last datetime the tally loop visited. -/
def Route.groupRow (r : Route) (grp : List DT) : MLRow :=
  let cells := r.groupCells grp
  { routeNo := r.route
  , timeOfDay := (grp.getLastD ⟨0, 0⟩).time
  , ons := (cells.map (fun c => c.2.1)).sum
  , offs := (cells.map (fun c => c.1)).sum
  , maxLoad := cells.foldl (fun m c => if c.2.2 > m then c.2.2 else m) 0 }

/-- The grouping loop of `Route.buildTotalsByTime` (lines 493-535):
starting at each unprocessed index, collect the run of consecutive
datetimes sharing the start time of the first one, emit one row for
that group and continue after it.  The first argument is recursion
fuel; since `dropWhile` never lengthens a list, fuel equal to the
length of the departure list (as supplied by `buildTotalsByTime`)
always suffices and the zero-fuel branch is never reached. -/
def Route.buildTotalsByTimeAux (r : Route) : Nat → List DT → List MLRow
  | _, [] => []
  | 0, _ :: _ => []
  | fuel + 1, dt :: rest =>
    r.groupRow (dt :: rest.takeWhile (fun d => d.time == dt.time)) ::
      r.buildTotalsByTimeAux fuel (rest.dropWhile (fun d => d.time == dt.time))

/-- `Route.buildTotalsByTime` (lines 485-535), as the list of rows it
writes to the worksheet. -/
def Route.buildTotalsByTime (r : Route) : List MLRow :=
  r.buildTotalsByTimeAux r.times.length r.times

/-- Keys of the `RouteManager.routes` dict.  The dict is keyed by
`(route, direction)` tuples, but `RouteManager.setRouteData`
(line 135) performs its membership test with the bare route cell
value; `single` models that probe value, which can never equal a
stored `pair` key. -/
inductive PyKey where
  | single (route : PyVal)
  | pair (route : PyVal) (d : Direction)
deriving DecidableEq

/-- Class `RouteManager` (lines 61-73): the dict from
`(route, direction)` to `Route`. -/
structure RouteManager where
  routes : List (PyKey × Route)
deriving DecidableEq

/-- `RouteManager.addStop` (lines 84-99): create the route lazily,
then delegate. -/
def RouteManager.addStop (m : RouteManager) (route : PyVal) (direction : Direction)
    (stop_no : Int) (street cross_street : PyVal) (is_timed : Bool) : RouteManager :=
  let m := if (alookup m.routes (.pair route direction)).isSome then m
    else { routes := aset (.pair route direction) (Route.mkNew route direction) m.routes }
  match alookup m.routes (.pair route direction) with
  | some r =>
    { routes := aset (.pair route direction)
        (r.addStop stop_no street cross_street is_timed) m.routes }
  | none => m

/-- `RouteManager.addData` (lines 101-124): error and failure when
the `(route, direction)` key is absent, otherwise delegate. -/
def RouteManager.addData (m : RouteManager) (route : PyVal) (direction : Direction)
    (stop_no : PyVal) (dt : DT) (run : PyVal) (arrival schedule : Option DT)
    (offs ons : PyVal) (onboard : Option Int) : RouteManager × Bool :=
  match alookup m.routes (.pair route direction) with
  | none => (m, false)
  | some r =>
    let (r', ok) := r.addData stop_no dt run arrival schedule offs ons onboard
    ({ routes := aset (.pair route direction) r' m.routes }, ok)

/-- `RouteManager.setRouteData` (lines 126-139).  The guard
`if route not in self.routes` tests the bare route value against the
`(route, direction)` tuple keys, so it never finds a match and a
fresh `Route` is assigned to `self.routes[(route, direction)]`
unconditionally, replacing any existing one; the descriptor is then
set on that fresh, stop-less route. -/
def RouteManager.setRouteData (m : RouteManager) (route : PyVal)
    (description : PyVal) (direction : Direction) : Except PyErr RouteManager :=
  let m1 := if (alookup m.routes (.single route)).isSome then m
    else { routes := aset (.pair route direction) (Route.mkNew route direction) m.routes }
  match alookup m1.routes (.pair route direction) with
  | some r =>
    match r.setRouteData description with
    | .ok r' => .ok { routes := aset (.pair route direction) r' m1.routes }
    | .error e => .error e
  | none => .error .keyError

/-- `RouteManager.setCityName` (lines 141-148). -/
def RouteManager.setCityName (m : RouteManager) (name : Option String) : RouteManager :=
  { routes := m.routes.map (fun p => (p.1, p.2.setCityName name)) }

/-- `RouteManager.buildLoad` (lines 150-155). -/
def RouteManager.buildLoad (m : RouteManager) : RouteManager :=
  { routes := m.routes.map (fun p => (p.1, p.2.buildLoad)) }

/-- One ride-checks observation row, columns 1-12 as raw cell values
(lines 1076-1087). -/
structure Row where
  sequence : PyVal
  date : PyVal
  route : PyVal
  direction : PyVal
  run : PyVal
  start_time : PyVal
  onboard : PyVal
  stop_number : PyVal
  arrival_time : PyVal
  schedule_time : PyVal
  offs : PyVal
  ons : PyVal
deriving DecidableEq

/-- The body of the ride-checks ingestion loop for one row
(lines 1076-1195).  Returns the updated manager, the updated
`prev_seq`, and `none` when the row was rejected by a validation
check, `some b` when it reached `route_manager.addData` with result
`b`.  The first statement executed on the row data is the
out-of-order warning check `if sequence - 1 != prev_seq` (line 1092):
Python's `-` raises `TypeError` on a non-numeric `sequence` cell, so
such a row aborts ingestion with an exception before the
`isinstance(sequence, int)` rejection check (line 1098) is reached;
an integer `sequence` always survives that check, and the comparison
result only feeds a logged warning. -/
def processRow (m : RouteManager) (prev_seq : Int) (row : Row) :
    Except PyErr (RouteManager × Int × Option Bool) :=
  match row.sequence with
  | .vint sq =>
    -- prev_seq = sequence (line 1095) happens before every later check,
    -- so even a rejected row updates the sequence cursor.
    match row.date with
    | .vdate d =>
      match row.route with
      | .vint _ =>
        if stringToDirectionV row.direction = .UN then .ok (m, sq, none)
        else
          match row.start_time with
          | .vtime stt =>
            -- blank strings in optional cells normalize to None (lines 1127-1134)
            let arrival_time := if row.arrival_time = .vstr "" then .vnone else row.arrival_time
            let schedule_time := if row.schedule_time = .vstr "" then .vnone else row.schedule_time
            let onsv := if row.ons = .vstr "" then .vnone else row.ons
            let offsv := if row.offs = .vstr "" then .vnone else row.offs
            -- onboard must be absent or an integer (line 1137)
            match row.onboard with
            | .vstr _ => .ok (m, sq, none)
            | .vdate _ => .ok (m, sq, none)
            | .vtime _ => .ok (m, sq, none)
            | onboardv =>
              -- arrival/schedule must be absent or times (lines 1142-1155)
              match arrival_time with
              | .vstr _ => .ok (m, sq, none)
              | .vdate _ => .ok (m, sq, none)
              | .vint _ => .ok (m, sq, none)
              | arrivalv =>
                match schedule_time with
                | .vstr _ => .ok (m, sq, none)
                | .vdate _ => .ok (m, sq, none)
                | .vint _ => .ok (m, sq, none)
                | schedulev =>
                  -- ons/offs must be absent or integers (lines 1156-1165)
                  match onsv with
                  | .vstr _ => .ok (m, sq, none)
                  | .vdate _ => .ok (m, sq, none)
                  | .vtime _ => .ok (m, sq, none)
                  | onsv' =>
                    match offsv with
                    | .vstr _ => .ok (m, sq, none)
                    | .vdate _ => .ok (m, sq, none)
                    | .vtime _ => .ok (m, sq, none)
                    | offsv' =>
                      -- combine date with the times (lines 1169-1177)
                      let start_dt : DT := ⟨d, stt⟩
                      let arrivalDT : Option DT := match arrivalv with
                        | .vtime t => some ⟨d, t⟩
                        | _ => none
                      let scheduleDT : Option DT := match schedulev with
                        | .vtime t => some ⟨d, t⟩
                        | _ => none
                      let onboardI : Option Int := match onboardv with
                        | .vint n => some n
                        | _ => none
                      let dir := stringToDirectionV row.direction
                      let (m', ok) := m.addData row.route dir row.stop_number
                        start_dt row.run arrivalDT scheduleDT offsv' onsv' onboardI
                      .ok (m', sq, some ok)
          | _ => .ok (m, sq, none)
      | _ => .ok (m, sq, none)
    | _ => .ok (m, sq, none)
  | _ => .error .typeError

/-- The ride-checks ingestion loop (lines 1070-1195): starting from
`prev_seq = 0`, process rows until the first one whose column-1 cell
is empty (the loop guard at line 1074), propagating any uncaught
exception. -/
def processRows (m : RouteManager) (prev_seq : Int) :
    List Row → Except PyErr RouteManager
  | [] => .ok m
  | row :: rest =>
    if row.sequence = .vnone then .ok m
    else do
      let (m', prev', _res) ← processRow m prev_seq row
      processRows m' prev' rest

/-- One row of the bus-stop (topology) workbook, restricted to the
columns the parser reads: column 3 (street / city header), column 4
(cross street / route name), column 5 (stop number), column 8 (the
"ROUTE" marker), column 10 (route number, and direction on the row
beneath a marker), plus whether the column-3 cell carries a fill
pattern (the timed-stop flag, line 1061). -/
structure BusRow where
  c3 : PyVal
  c4 : PyVal
  c5 : PyVal
  c8 : PyVal
  c10 : PyVal
  c3filled : Bool
deriving DecidableEq

/-- A row of an empty worksheet region: every cell reads as `None`
and carries no fill. -/
def blankBusRow : BusRow := ⟨.vnone, .vnone, .vnone, .vnone, .vnone, false⟩

/-- Python `str(...)` of a cell value, used for the city-name header. -/
def pyStr : PyVal → String
  | .vint n => toString n
  | .vstr s => s
  | .vdate d => toString d
  | .vtime t => toString t
  | .vnone => "None"

/-- Reading a worksheet row by 1-based index: indices below 1 are
rejected by openpyxl with `ValueError`; rows past the used range read
as empty. -/
def busRowAt (sheet : List BusRow) (j : Int) : Except PyErr BusRow :=
  if j < 1 then .error .valueError
  else .ok (sheet.getD (j - 1).toNat blankBusRow)

/-- The body of the bus-stop parsing loop for one 1-based row index
(lines 1035-1062): on a marker row, register the route metadata
(taking the direction from the row beneath and, once, the city name
from two rows above) and make the raw route cell and direction
current; then, marker row or not, skip the row when the current route
cell holds `None` (`if current_route is None: continue`, line 1053 —
this is the state both before any marker row and after a marker row
with an empty route cell), and otherwise add a stop when column 5
holds an integer. -/
def ingestBusStep (sheet : List BusRow)
    (st : RouteManager × (PyVal × Direction) × Option String) (j : Nat) :
    Except PyErr (RouteManager × (PyVal × Direction) × Option String) := do
  let (m, cur, city) := st
  let row := sheet.getD (j - 1) blankBusRow
  let (m, cur, city) ←
    if row.c8 = .vstr "ROUTE" then do
      let rt := row.c10
      let name := row.c4
      let dir := stringToDirectionV (sheet.getD j blankBusRow).c10
      let m ← m.setRouteData rt name dir
      let city ←
        if city = none then do
          let rowAbove ← busRowAt sheet ((j : Int) - 2)
          pure (some (pyStr rowAbove.c3))
        else pure city
      pure (m, (rt, dir), city)
    else pure (m, cur, city)
  if cur.1 = .vnone then pure (m, cur, city)
  else
    match row.c5 with
    | .vint k =>
      pure (m.addStop cur.1 cur.2 k row.c3 row.c4 row.c3filled, cur, city)
    | _ => pure (m, cur, city)

/-- The bus-stop parsing phase of `generateSummary`
(lines 1026-1066): scan rows 1..max_row starting with no current
route (`current_route = None`, modelled as the `.vnone` cell), then
broadcast the captured city name to every route. -/
def ingestBus (sheet : List BusRow) : Except PyErr RouteManager := do
  let (m, _, city) ← (List.range' 1 sheet.length).foldlM (ingestBusStep sheet)
    (⟨[]⟩, (.vnone, .UN), none)
  pure (m.setCityName city)

/-- The value codes of the `Direction` enum.  Python's
`Direction.__lt__` compares `str(self)`, i.e. `"Direction.IB"` and
the like; since the common prefix is shared, that order coincides
with the order of these codes. -/
def Direction.code : Direction → String
  | .IB => "IB"
  | .OB => "OB"
  | .NB => "NB"
  | .SB => "SB"
  | .EB => "EB"
  | .WB => "WB"
  | .LP => "LP"
  | .UN => "UN"

/-- Python `<` on two raw cell values, as invoked when sorting route
keys: comparisons within one type succeed; a comparison across types,
or any comparison involving `None`, raises `TypeError`. -/
def pyLtVal : PyVal → PyVal → Except PyErr Bool
  | .vint a, .vint b => .ok (decide (a < b))
  | .vstr a, .vstr b => .ok (decide (a < b))
  | .vdate a, .vdate b => .ok (decide (a < b))
  | .vtime a, .vtime b => .ok (decide (a < b))
  | _, _ => .error .typeError

/-- Python `<` on the `(route, direction)` tuple keys of the routes
dict: tuple comparison first tests the route cells for equality (never
raising), then either compares the directions via `Direction.__lt__`
(always succeeding) or the route cells via `<`. -/
def pyLtKey : PyKey → PyKey → Except PyErr Bool
  | .pair r1 d1, .pair r2 d2 =>
    if r1 = r2 then .ok (decide (d1.code < d2.code)) else pyLtVal r1 r2
  | _, _ => .error .typeError

/-- Insertion into a sorted list under a comparison that can raise. -/
def insertSortedM (lt : α → α → Except PyErr Bool) (a : α) :
    List α → Except PyErr (List α)
  | [] => .ok [a]
  | b :: l => do
    if (← lt a b) then .ok (a :: b :: l)
    else do
      let l2 ← insertSortedM lt a l
      .ok (b :: l2)

/-- A comparison sort in the `Except` monad, modelling Python's
`sorted(...)` over keys whose comparison can raise: like any
comparison sort (Python's included), it raises `TypeError` exactly
when the input holds two keys of incomparable types, because every
comparison sort must at some point compare an element of one type
against an element of the other.  (Route keys are distinct dict keys,
so the order of ties never arises.) -/
def insSortM (lt : α → α → Except PyErr Bool) : List α → Except PyErr (List α)
  | [] => .ok []
  | a :: l => do
    let l2 ← insSortM lt l
    insertSortedM lt a l2

/-- `Stop.getTotalOffsAndOns` (lines 838-847). -/
def Stop.getTotalOffsAndOns (s : Stop) : Int × Int :=
  ((s.data.map (fun p => p.2.offs)).sum, (s.data.map (fun p => p.2.ons)).sum)

/-- `Route.getTotalOffsAndOns` (lines 471-483). -/
def Route.getTotalOffsAndOns (r : Route) : Int × Int × Int :=
  let offs := (r.stops.map (fun p => p.2.getTotalOffsAndOns.1)).sum
  let ons := (r.stops.map (fun p => p.2.getTotalOffsAndOns.2)).sum
  (offs, ons, offs + ons)

/-- `Route.getDescriptorAndDirectionTrunc` (lines 462-469):
`self.descriptor[0:remaining_l]` succeeds only on a string descriptor
— slicing `None`, an integer, a date or a time raises `TypeError`.
`max(0, l - len - 1)` is the truncated natural subtraction. -/
def Route.getDescriptorAndDirectionTrunc (r : Route) (l : Nat) :
    Except PyErr String :=
  match r.descriptor with
  | .vstr s => .ok ((s.take (l - r.direction.code.length - 1)).append
      (" ".append r.direction.code))
  | _ => .error .typeError

/-- One row of the Route Totals sheet (columns A, C, D, E, F). -/
structure RTRow where
  routeNo : PyVal
  descriptor : String
  ons : Int
  offs : Int
  total : Int
deriving DecidableEq

/-- `RouteManager.buildRouteTotals` (lines 157-190), the first report
builder `generateSummary` runs: sort the `(route, direction)` keys
(raising `TypeError` on keys of mixed types), then for every route
write its route cell, truncated descriptor (raising `TypeError` on a
non-string descriptor, line 469 via line 184) and off/on totals. -/
def RouteManager.buildRouteTotals (m : RouteManager) :
    Except PyErr (List RTRow) := do
  let keys ← insSortM pyLtKey (m.routes.map Prod.fst)
  keys.mapM (fun k =>
    match alookup m.routes k with
    | none => .error .keyError
    | some r => do
      let desc ← r.getDescriptorAndDirectionTrunc 29
      let t := r.getTotalOffsAndOns
      let rt := match k with
        | .pair rv _ => rv
        | .single rv => rv
      .ok { routeNo := rt, descriptor := desc, ons := t.2.1, offs := t.1,
            total := t.2.2 })

/-- `RouteManager.buildMaxLoads` (lines 193-222): sort the keys again
and emit each route's `buildTotalsByTime` rows; the truncated
descriptor is written on each emitted row (line 527), so a route with
rows and a non-string descriptor raises — a condition
`buildRouteTotals` has already checked for every route. -/
def RouteManager.buildMaxLoads (m : RouteManager) :
    Except PyErr (List MLRow) := do
  let keys ← insSortM pyLtKey (m.routes.map Prod.fst)
  let rowss ← keys.mapM (fun k =>
    match alookup m.routes k with
    | none => .error .keyError
    | some r =>
      match r.buildTotalsByTime with
      | [] => .ok ([] : List MLRow)
      | row :: rows => do
        let _ ← r.getDescriptorAndDirectionTrunc 29
        .ok (row :: rows))
  .ok rowss.flatten

/-- `generateSummary` (lines 972-1250), with the two collaborator
interfaces abstracted to their observable outcomes: each input source
either opens (yielding its parsed rows) or does not (`none`), and the
output sink either persists or raises on `wb.save`.  An input that
fails to open logs an error and the function returns 1 after
attempting to save the log-only output, or 2 when that save also
fails (lines 994-1024); otherwise both ingestion phases run, loads
are propagated, the five report builders run, and the final save
yields 0, or 2 when it fails (lines 1244-1250).

The report phase can itself raise `TypeError` before the save is
reached: `buildRouteTotals` sorts the route keys and truncates every
route's descriptor.  The three builders after `buildMaxLoads`
(`buildRouteTotalsByStop`, `buildOnTimeDetail`, `buildDetailReport`)
are modelled as pure worksheet writes because, on the states reachable
here, they cannot raise once `buildRouteTotals` has succeeded: they
re-sort the same key list and re-use the same descriptors (every
stop's descriptor equals its route's, both being set together at
`addStop` / route creation), and beyond that they only write
already-validated values — integer offs/ons/onboard/load tallies,
datetime arrivals and schedules (whose subtraction in
`getMinutesLate` succeeds), `str(...)`-guarded street names, and raw
cells of types the sink accepts. -/
def generateSummary (ride : Option (List Row)) (bus : Option (List BusRow))
    (saveOk : Bool) : Except PyErr Nat :=
  match ride with
  | none => .ok (if saveOk then 1 else 2)
  | some rideRows =>
    match bus with
    | none => .ok (if saveOk then 1 else 2)
    | some busRows => do
      let m ← ingestBus busRows
      let m ← processRows m 0 rideRows
      let m := m.buildLoad
      let _routeTotals ← m.buildRouteTotals
      let _maxLoads ← m.buildMaxLoads
      pure (if saveOk then 0 else 2)

/-- Sortedness of a datetime list by (time-of-day, date) — the
invariant `Route.addData` maintains for `Route.times` (line 398). -/
def timesSortedTD (l : List DT) : Prop :=
  l.Pairwise (fun a b => DT.leTD a b = true)

/-- The specification's reading of the Max Load cell of a
time-of-day group: the maximum of the `load` values observed across
stops and dates within the group, with no floor. -/
def specGroupMaxLoad (r : Route) (t : Nat) : Option Int :=
  ((r.groupCells (r.times.filter (fun d => d.time == t))).map (fun c => c.2.2)).max?

/-- The specification's reading of the `buildLoad` visiting order:
the departures in ascending (time-of-day, date) order. -/
def specBuildLoadOrder (r : Route) : List DT :=
  insSort DT.leTD r.times

/-- The load stored for stop number `k` at departure `dt`. -/
def loadView (stops : List (Int × Stop)) (k : Int) (dt : DT) : Option Int :=
  (alookup stops k).bind (fun s => (alookup s.data dt).map (fun o => o.load))

/-- The observation stored for stop number `k` at departure `dt`. -/
def obsView (stops : List (Int × Stop)) (k : Int) (dt : DT) : Option Obs :=
  (alookup stops k).bind (fun s => alookup s.data dt)

/-- The `(offs, ons)` pair `buildLoad` reads for stop number `k` at
departure `dt` (`(0, 0)` when the stop or the observation is absent). -/
def offsOnsView (stops : List (Int × Stop)) (k : Int) (dt : DT) : Int × Int :=
  match alookup stops k with
  | none => (0, 0)
  | some s => s.getOffsAndOns dt

/-- The per-departure net boardings of a route's stops: for each
given stop number, the stop's `ons - offs` at that departure (0 when
the stop has no observation for it), summed in order. -/
def sumNet (stops : List (Int × Stop)) (dt : DT) (keys : List Int) : Int :=
  (keys.map (fun k => (offsOnsView stops k dt).2 - (offsOnsView stops k dt).1)).sum

-- Concrete fixtures used by the claim-level evaluations below.

/-- A manager holding route 5 Northbound with stops 100 and 200 (the
worked example of the specification). -/
def rmEx : RouteManager :=
  (((RouteManager.mk []).addStop (.vint 5) .NB 100 (.vstr "Main") (.vstr "First") false)).addStop
    (.vint 5) .NB 200 (.vstr "Main") (.vstr "Second") false

/-- `rmEx` after one observation with an onboard value. -/
def rmExObs : RouteManager :=
  (rmEx.addData (.vint 5) .NB (.vint 100) ⟨1, 480⟩ (.vint 1) none none
    (.vint 0) (.vint 3) (some 2)).1

/-- A well-typed observation row whose sequence number (10) is out of
order after `prev_seq = 0`. -/
def rowOutOfOrder : Row :=
  ⟨.vint 10, .vdate 1, .vint 5, .vstr "NB", .vint 1, .vtime 480, .vint 2,
   .vint 200, .vnone, .vnone, .vint 0, .vint 3⟩

/-- A row whose sequence cell holds the string "A7". -/
def rowSeqString : Row :=
  ⟨.vstr "A7", .vdate 1, .vint 5, .vstr "NB", .vint 1, .vtime 480, .vnone,
   .vint 100, .vnone, .vnone, .vint 0, .vint 3⟩

/-- A row, valid in all required fields, whose `ons` cell holds the
non-blank string "x". -/
def rowOnsString : Row :=
  ⟨.vint 1, .vdate 1, .vint 5, .vstr "NB", .vint 1, .vtime 480, .vnone,
   .vint 100, .vnone, .vnone, .vnone, .vstr "x"⟩

/-- Route 5 NB with a single stop 100. -/
def routeOneStop : Route :=
  (Route.mkNew (.vint 5) .NB).addStop 100 (.vstr "Main") (.vstr "First") false

/-- Route 5 NB with stops 100 and 200. -/
def routeTwoStops : Route :=
  routeOneStop.addStop 200 (.vstr "Main") (.vstr "Second") false

/-- `routeOneStop` with one observation at departure (day 1, 08:00)
carrying `onboard = 5`. -/
def routeC3base : Route :=
  (routeOneStop.addData (.vint 100) ⟨1, 480⟩ (.vint 1) none none
    (.vint 0) (.vint 3) (some 5)).1

/-- The duplicate `addData` call against `routeC3base`: same stop and
departure, different values, `onboard = 7`. -/
def routeC3dup : Route × Bool :=
  routeC3base.addData (.vint 100) ⟨1, 480⟩ (.vint 2) none none
    (.vint 1) (.vint 1) (some 7)

/-- `routeOneStop` with one observation of 3 offs and 0 ons (running
load −3), after load propagation. -/
def routeC7built : Route :=
  ((routeOneStop.addData (.vint 100) ⟨1, 480⟩ (.vint 1) none none
    (.vint 3) (.vint 0) none).1).buildLoad

/-- A route whose `times` list holds 08:00 on day 2 and 09:00 on
day 1 — already in its stored (time-of-day, date) order. -/
def routeC8 : Route :=
  { Route.mkNew (.vint 5) .NB with times := [⟨2, 480⟩, ⟨1, 540⟩] }

/-- `routeTwoStops` with an observation only at stop 100 for the
departure (day 1, 08:00). -/
def routeC9base : Route :=
  (routeTwoStops.addData (.vint 100) ⟨1, 480⟩ (.vint 1) none none
    (.vint 0) (.vint 3) none).1

/-- The input cleaning of `Stop.addData` (lines 763-768): any value
that is not a non-negative integer is replaced by 0. -/
def cleanNonneg : PyVal → Int
  | .vint n => if 0 ≤ n then n else 0
  | _ => 0

/-- The observation stored for a route key, stop number and departure
in a whole manager. -/
def mgrObsView (m : RouteManager) (route : PyVal) (d : Direction) (k : Int)
    (dt : DT) : Option Obs :=
  (alookup m.routes (.pair route d)).bind (fun r => obsView r.stops k dt)

/-- A placeholder stop used as a lookup default by the fixtures. -/
def dummyStop : Stop := Stop.mkNew .vnone 0 .vnone .vnone

/-- A placeholder observation used as a lookup default by the fixtures. -/
def dummyObs : Obs :=
  { run := .vnone, arrival := none, schedule := none, offs := 0, ons := 0, load := 0 }

/-- The stop object stored at key 100 of `routeC3base`. -/
def sC3 : Stop := (alookup routeC3base.stops 100).getD dummyStop

/-- The observation stored at departure (day 1, 08:00) of `sC3`. -/
def oC3 : Obs := (alookup sC3.data ⟨1, 480⟩).getD dummyObs

/-- The route object stored for (5, NB) in `rmEx`. -/
def rEx5 : Route :=
  (alookup rmEx.routes (.pair (.vint 5) (stringToDirection "NB"))).getD (Route.mkNew .vnone .UN)

/-- The stop object stored at key 100 of `rEx5`. -/
def sEx5 : Stop := (alookup rEx5.stops 100).getD dummyStop

/-- A row, valid in all required fields, whose `ons` cell holds the
negative integer −4. -/
def rowOnsNeg : Row :=
  ⟨.vint 1, .vdate 1, .vint 5, .vstr "NB", .vint 1, .vtime 480, .vnone,
   .vint 100, .vnone, .vnone, .vnone, .vint (-4)⟩

/-- The specification's worked scenario: route 5 NB, stops 100 and
200, departure (day 1, 08:00) with onboard 2, stop 100 ons 3, stop
200 offs 5. -/
def routeC1 : Route :=
  (((routeTwoStops.addData (.vint 100) ⟨1, 480⟩ (.vint 1) none none
      (.vint 0) (.vint 3) (some 2)).1).addData (.vint 200) ⟨1, 480⟩ (.vint 1)
      none none (.vint 5) (.vint 0) none).1

/-- The observation stored at stop 100 of `routeC9base`. -/
def oC9 : Obs := (obsView routeC9base.stops 100 ⟨1, 480⟩).getD dummyObs

/-- A route with one stop and two departures at 08:00 on days 1 and
8 (the specification's cross-date grouping scenario), after load
propagation. -/
def routeC7grp : Route :=
  (((routeOneStop.addData (.vint 100) ⟨1, 480⟩ (.vint 1) none none
      (.vint 0) (.vint 2) none).1).addData (.vint 100) ⟨8, 480⟩ (.vint 2)
      none none (.vint 1) (.vint 3) none).1.buildLoad

/-- A small bus-stop sheet: a city header on row 1, a "ROUTE" marker
on row 3 (route 5, named Downtown, direction NB taken from row 4) and
stops 100 and 200 on rows 4-5. -/
def busSheetEx : List BusRow :=
  [⟨.vstr "Springfield", .vnone, .vnone, .vnone, .vnone, false⟩,
   blankBusRow,
   ⟨.vnone, .vstr "Downtown", .vnone, .vstr "ROUTE", .vint 5, false⟩,
   ⟨.vstr "Main", .vstr "First", .vint 100, .vnone, .vstr "NB", false⟩,
   ⟨.vstr "Main", .vstr "Second", .vint 200, .vnone, .vnone, false⟩]

/-- A bus-stop sheet whose ROUTE marker row (row 3) has an empty
name cell: the registered route's descriptor is `None`. -/
def busSheetNoName : List BusRow :=
  [blankBusRow,
   blankBusRow,
   ⟨.vnone, .vnone, .vnone, .vstr "ROUTE", .vint 5, false⟩,
   ⟨.vstr "Main", .vstr "First", .vint 100, .vnone, .vstr "NB", false⟩]

/-- The manager produced by ingesting `busSheetEx`. -/
def mEx10 : RouteManager := (ingestBus busSheetEx).toOption.getD ⟨[]⟩

/-- `mEx10` after ingesting one out-of-order (warned, accepted) row
and one rejected row. -/
def mEx10After : RouteManager :=
  (processRows mEx10 0 [rowOutOfOrder, rowOnsString]).toOption.getD ⟨[]⟩

/-- The Route Totals rows built from the loaded `mEx10After`. -/
def rtsEx10 : List RTRow :=
  (mEx10After.buildLoad.buildRouteTotals).toOption.getD []

/-- The Max Load rows built from the loaded `mEx10After`. -/
def mlsEx10 : List MLRow :=
  (mEx10After.buildLoad.buildMaxLoads).toOption.getD []

instance (l : List DT) : Decidable (timesSortedTD l) :=
  inferInstanceAs (Decidable (l.Pairwise (fun a b => DT.leTD a b = true)))

-- ===== Theorems =====

theorem insertSorted_perm (le : α → α → Bool) (a : α) (l : List α) :
    (insertSorted le a l).Perm (a :: l) := by
  induction l with
  | nil => simp [insertSorted]
  | cons b l ih =>
    simp only [insertSorted]
    by_cases h : le a b = true
    · simp [h]
    · simp only [h, Bool.false_eq_true, if_false]
      exact (List.Perm.cons b ih).trans (List.Perm.swap a b l)

theorem insSort_perm (le : α → α → Bool) (l : List α) :
    (insSort le l).Perm l := by
  induction l with
  | nil => simp [insSort]
  | cons a l ih =>
    simp only [insSort]
    exact (insertSorted_perm le a (insSort le l)).trans (List.Perm.cons a ih)

theorem mem_insertSorted (le : α → α → Bool) (a x : α) (l : List α) :
    x ∈ insertSorted le a l ↔ x ∈ a :: l :=
  (insertSorted_perm le a l).mem_iff

theorem pairwise_insertSorted (le : α → α → Bool)
    (htot : ∀ x y, le x y = true ∨ le y x = true)
    (htrans : ∀ x y z, le x y = true → le y z = true → le x z = true)
    (a : α) (l : List α) (h : l.Pairwise (fun x y => le x y = true)) :
    (insertSorted le a l).Pairwise (fun x y => le x y = true) := by
  induction l with
  | nil => simp [insertSorted]
  | cons b l ih =>
    obtain ⟨hb, hl⟩ := List.pairwise_cons.mp h
    simp only [insertSorted]
    by_cases hab : le a b = true
    · simp only [hab, if_true]
      refine List.Pairwise.cons ?_ (List.Pairwise.cons hb hl)
      intro x hx
      rcases List.mem_cons.mp hx with hx | hx
      · simpa [hx] using hab
      · exact htrans a b x hab (hb x hx)
    · simp only [hab, Bool.false_eq_true, if_false]
      refine List.Pairwise.cons ?_ (ih hl)
      intro x hx
      rcases List.mem_cons.mp ((mem_insertSorted le a x l).mp hx) with hx | hx
      · rcases htot a b with h1 | h1
        · exact absurd h1 hab
        · simpa [hx] using h1
      · exact hb x hx

theorem pairwise_insSort (le : α → α → Bool)
    (htot : ∀ x y, le x y = true ∨ le y x = true)
    (htrans : ∀ x y z, le x y = true → le y z = true → le x z = true)
    (l : List α) :
    (insSort le l).Pairwise (fun x y => le x y = true) := by
  induction l with
  | nil => simp [insSort]
  | cons a l ih =>
    simpa [insSort] using pairwise_insertSorted le htot htrans a (insSort le l) ih

theorem intLe_total : ∀ x y : Int, intLe x y = true ∨ intLe y x = true := by
  intro x y
  simp only [intLe, decide_eq_true_eq]
  omega

theorem intLe_trans : ∀ x y z : Int,
    intLe x y = true → intLe y z = true → intLe x z = true := by
  intro x y z
  simp only [intLe, decide_eq_true_eq]
  omega

theorem leDT_total : ∀ x y : DT, DT.leDT x y = true ∨ DT.leDT y x = true := by
  intro x y
  simp only [DT.leDT, Bool.or_eq_true, Bool.and_eq_true, decide_eq_true_eq]
  omega

theorem leDT_trans : ∀ x y z : DT,
    DT.leDT x y = true → DT.leDT y z = true → DT.leDT x z = true := by
  intro x y z
  simp only [DT.leDT, Bool.or_eq_true, Bool.and_eq_true, decide_eq_true_eq]
  omega

theorem leTD_total : ∀ x y : DT, DT.leTD x y = true ∨ DT.leTD y x = true := by
  intro x y
  simp only [DT.leTD, Bool.or_eq_true, Bool.and_eq_true, decide_eq_true_eq]
  omega

theorem leTD_trans : ∀ x y z : DT,
    DT.leTD x y = true → DT.leTD y z = true → DT.leTD x z = true := by
  intro x y z
  simp only [DT.leTD, Bool.or_eq_true, Bool.and_eq_true, decide_eq_true_eq]
  omega

theorem alookup_aset_self [DecidableEq κ] (k : κ) (v : β) (l : List (κ × β)) :
    alookup (aset k v l) k = some v := by
  induction l with
  | nil => simp [aset, alookup]
  | cons p l ih =>
    obtain ⟨k', v'⟩ := p
    by_cases h : k = k'
    · simp [aset, alookup, h]
    · simp [aset, alookup, h, ih]

theorem alookup_aset_other [DecidableEq κ] (k k' : κ) (v : β) (l : List (κ × β))
    (h : k' ≠ k) : alookup (aset k v l) k' = alookup l k' := by
  induction l with
  | nil => simp [aset, alookup, h]
  | cons p l ih =>
    obtain ⟨k₀, v₀⟩ := p
    by_cases h0 : k = k₀
    · subst h0
      simp [aset, alookup, h]
    · by_cases h1 : k' = k₀ <;> simp [aset, alookup, h0, h1, ih]

theorem aset_keys [DecidableEq κ] (k : κ) (v : β) (l : List (κ × β))
    (h : (alookup l k).isSome) : (aset k v l).map Prod.fst = l.map Prod.fst := by
  induction l with
  | nil => simp [alookup] at h
  | cons p l ih =>
    obtain ⟨k₀, v₀⟩ := p
    by_cases h0 : k = k₀
    · simp [aset, h0]
    · have h' : (alookup l k).isSome := by
        simp only [alookup, if_neg h0] at h
        exact h
      simp [aset, alookup, h0, ih h']

theorem aset_self_eq [DecidableEq κ] (k : κ) (v : β) (l : List (κ × β))
    (h : alookup l k = some v) : aset k v l = l := by
  induction l with
  | nil => simp [alookup] at h
  | cons p l ih =>
    obtain ⟨k₀, v₀⟩ := p
    by_cases h0 : k = k₀
    · subst h0
      simp only [alookup, if_pos rfl] at h
      obtain rfl : v₀ = v := by injection h
      simp [aset]
    · have h' : alookup l k = some v := by
        have h0' : ¬ (k = k₀) := h0
        simpa [alookup, h0'] using h
      simp [aset, h0, ih h']

theorem alookup_isSome_of_mem_keys [DecidableEq κ] (l : List (κ × β)) (k : κ)
    (h : k ∈ l.map Prod.fst) : (alookup l k).isSome := by
  induction l with
  | nil => simp at h
  | cons p l ih =>
    obtain ⟨k₀, v₀⟩ := p
    by_cases h0 : k = k₀
    · simp [alookup, h0]
    · have : k ∈ l.map Prod.fst := by
        simpa [h0] using h
      simp [alookup, h0, ih this]

/-- Claim C2 (code evaluation): `RouteManager.setRouteData` on a
`(route, direction)` pair that already has a `Route` with a stop, a
departure time and an onboard value succeeds but replaces that
`Route` with a fresh one — the previously added stop, departure and
onboard value are gone afterwards, so the pair does not denote one
`Route` object for the lifetime of the run and nothing is
preserved. -/
theorem c2_setRouteData_replaces_route :
    (alookup rmExObs.routes (.pair (.vint 5) .NB)).map
        (fun r => (r.stops.map Prod.fst, r.times, r.onboard))
      = some ([100, 200], [⟨1, 480⟩], [(⟨1, 480⟩, 2)])
    ∧ (RouteManager.setRouteData rmExObs (.vint 5) (.vstr "Uptown") .NB).toOption.map
        (fun m => (alookup m.routes (.pair (.vint 5) .NB)).map
          (fun r => (r.stops, r.times, r.onboard, r.descriptor)))
      = some (some ([], [], [], .vstr "Uptown")) := by
  exact ⟨rfl, rfl⟩

/-- Claim C6 (code evaluation): `Route.setRouteData` raises
`NameError` (the loop body reads the unbound name `direction`) as
soon as the route has a child stop, while the same call on a route
without stops succeeds; the descriptor is never propagated to an
existing child stop. -/
theorem c6_setRouteData_raises_with_stops :
    routeOneStop.setRouteData (.vstr "Uptown") = .error .nameError
    ∧ (Route.mkNew (.vint 5) .NB).setRouteData (.vstr "Uptown")
        = .ok { Route.mkNew (.vint 5) .NB with descriptor := .vstr "Uptown" } := by
  exact ⟨rfl, rfl⟩

/-- Claim C4 (code evaluation): a row whose sequence cell holds a
string makes ingestion raise `TypeError` (from `sequence - 1` in the
out-of-order check, executed before the type validation), aborting
the whole ride-checks loop instead of rejecting the row and
continuing; a well-typed row whose sequence is merely out of order is
still accepted (`addData` is reached and succeeds). -/
theorem c4_sequence_string_raises :
    processRow rmEx 0 rowSeqString = .error .typeError
    ∧ processRows rmEx 0 [rowSeqString, rowOutOfOrder] = .error .typeError
    ∧ (processRow rmEx 0 rowOutOfOrder).toOption.map (fun x => (x.2.1, x.2.2))
        = some (10, some true) := by
  exact ⟨rfl, rfl, rfl⟩

/-- Claim C3 (counterexample): a duplicate `addData` for the same
stop and departure returns failure and leaves the stored observation
unchanged, but it does NOT leave the rest of the model unchanged: the
route's onboard entry for that departure is overwritten (5 becomes 7)
by the failing call. -/
theorem c3_counterexample :
    alookup routeC3base.onboard ⟨1, 480⟩ = some 5
    ∧ routeC3dup.2 = false
    ∧ obsView routeC3dup.1.stops 100 ⟨1, 480⟩ = obsView routeC3base.stops 100 ⟨1, 480⟩
    ∧ alookup routeC3dup.1.onboard ⟨1, 480⟩ = some 7 := by
  exact ⟨rfl, rfl, rfl, rfl⟩

/-- Claim C5 (counterexample): a row whose required fields are all
valid but whose `ons` cell holds the non-blank string "x" is rejected
by the validator (`processRow` returns with the manager unchanged and
no `addData` attempt) rather than being passed downstream and coerced
to 0 by the Stop. -/
theorem c5_counterexample :
    processRow rmEx 0 rowOnsString = .ok (rmEx, 1, none) := by
  exact rfl

/-- Claim C8 (counterexample): on a route with departures
(day 2, 08:00) and (day 1, 09:00), `buildLoad` visits them in plain
chronological (date, time-of-day) order — (day 1, 09:00) first — and
not in the claimed (time-of-day, date) order, which would put
(day 2, 08:00) first. -/
theorem c8_counterexample :
    routeC8.buildLoadOrder = [⟨1, 540⟩, ⟨2, 480⟩]
    ∧ specBuildLoadOrder routeC8 = [⟨2, 480⟩, ⟨1, 540⟩]
    ∧ routeC8.buildLoadOrder ≠ specBuildLoadOrder routeC8 := by
  refine ⟨rfl, rfl, ?_⟩
  decide

/-- Claim C8 (amended): `Route.buildLoad` visits the route's
departure datetimes in ascending plain chronological (date,
time-of-day) order — its visiting order is a permutation of
`Route.times` sorted by the natural datetime order. -/
theorem c8_amended_order (r : Route) :
    (r.buildLoadOrder).Pairwise (fun a b => DT.leDT a b = true)
    ∧ (r.buildLoadOrder).Perm r.times :=
  ⟨pairwise_insSort DT.leDT leDT_total leDT_trans r.times,
   insSort_perm DT.leDT r.times⟩

/-- Claim C9 (counterexample): load propagation creates an
observation record that ingestion never created — stop 200 has no
record for the departure before `buildLoad`, and afterwards holds the
placeholder record `[None, None, None, 0, 0, load]` with the running
load written in. -/
theorem c9_counterexample :
    obsView routeC9base.stops 200 ⟨1, 480⟩ = none
    ∧ obsView routeC9base.buildLoad.stops 200 ⟨1, 480⟩
        = some { run := .vnone, arrival := none, schedule := none,
                 offs := 0, ons := 0, load := 3 } := by
  exact ⟨rfl, rfl⟩

/-- Claim C7 (counterexample): with a single stop observing 3 offs
and 0 ons on one departure, the Max-Load row reports 0, while the
maximum `load` observed within that time-of-day group is −3 — the
emitted value is the maximum floored at 0, not the maximum load
observed. -/
theorem c7_counterexample :
    routeC7built.buildTotalsByTime.map MLRow.maxLoad = [0]
    ∧ specGroupMaxLoad routeC7built 480 = some (-3)
    ∧ some (0 : Int) ≠ some (-3 : Int) := by
  refine ⟨rfl, rfl, ?_⟩
  decide

/-- Claim C3 (amended): a second `addData` for a stop and departure
that already have an observation returns failure and leaves every
stop's stored observations, the departure list, and all other route
state unchanged — except that the onboard update is applied before
the duplicate check, so when the failing call supplies an onboard
value, the route's onboard entry for that departure is overwritten
(last write wins). -/
theorem c3_amended_duplicate (r : Route) (k : Int) (s : Stop) (dt : DT) (o : Obs)
    (run : PyVal) (arrival schedule : Option DT) (offs ons : PyVal)
    (onboard : Option Int)
    (hs : alookup r.stops k = some s) (ho : alookup s.data dt = some o)
    (ht : dt ∈ r.times) :
    (r.addData (.vint k) dt run arrival schedule offs ons onboard).2 = false
    ∧ (r.addData (.vint k) dt run arrival schedule offs ons onboard).1.stops = r.stops
    ∧ (r.addData (.vint k) dt run arrival schedule offs ons onboard).1.times = r.times
    ∧ (r.addData (.vint k) dt run arrival schedule offs ons onboard).1.onboard
        = (match onboard with
           | none => r.onboard
           | some v => aset dt v r.onboard)
    ∧ (r.addData (.vint k) dt run arrival schedule offs ons onboard).1.descriptor
        = r.descriptor
    ∧ (r.addData (.vint k) dt run arrival schedule offs ons onboard).1.timed_stops
        = r.timed_stops := by
  have hstop : s.addData dt run arrival schedule offs ons = (s, false) := by
    simp [Stop.addData, ho]
  simp [Route.addData, hs, hstop, ht, aset_self_eq k s r.stops hs]

/-- Claim C3 (amended, witness): the duplicate call against the
concrete route with an existing observation and onboard value 5,
supplying onboard 7, fails, changes no observation, and overwrites
the onboard entry. -/
theorem c3_amended_witness :
    alookup routeC3base.stops 100 = some sC3
    ∧ alookup sC3.data ⟨1, 480⟩ = some oC3
    ∧ (⟨1, 480⟩ : DT) ∈ routeC3base.times
    ∧ routeC3dup.2 = false
    ∧ routeC3dup.1.stops = routeC3base.stops
    ∧ routeC3dup.1.times = routeC3base.times
    ∧ routeC3dup.1.onboard = aset ⟨1, 480⟩ 7 routeC3base.onboard := by
  have h := c3_amended_duplicate routeC3base 100 sC3 ⟨1, 480⟩ oC3 (.vint 2)
    none none (.vint 1) (.vint 1) (some 7) rfl rfl (by decide)
  exact ⟨rfl, rfl, by decide, h.1, h.2.1, h.2.2.1, h.2.2.2.1⟩

/-- Claim C5 (amended): an `ons`/`offs` cell that is present but not
an integer (e.g. a non-blank string) causes the row to be rejected by
the validator; the lenient coercion path applies only to values that
reach the Stop — a present but *negative integer* `ons` does not
cause rejection and is silently stored as 0, and `Stop.addData`
coerces any non-(non-negative-integer) value it receives to 0. -/
theorem c5_amended_lenient :
    (∀ (m : RouteManager) (prev sq rt : Int) (d stt : Nat) (ds : String)
        (runv onbv stopv offv : PyVal) (s : String),
        s ≠ "" →
        processRow m prev ⟨.vint sq, .vdate d, .vint rt, .vstr ds, runv,
          .vtime stt, onbv, stopv, .vnone, .vnone, offv, .vstr s⟩
          = .ok (m, sq, none))
    ∧ (∀ (m : RouteManager) (prev sq rt : Int) (d stt : Nat) (ds : String)
        (r : Route) (k : Int) (s : Stop) (runv : PyVal) (n : Int),
        stringToDirection ds ≠ .UN →
        alookup m.routes (.pair (.vint rt) (stringToDirection ds)) = some r →
        alookup r.stops k = some s →
        alookup s.data ⟨d, stt⟩ = none →
        n < 0 →
        (processRow m prev ⟨.vint sq, .vdate d, .vint rt, .vstr ds, runv,
            .vtime stt, .vnone, .vint k, .vnone, .vnone, .vnone, .vint n⟩).toOption.map
            (fun x => (x.2.1, x.2.2)) = some (sq, some true)
        ∧ (processRow m prev ⟨.vint sq, .vdate d, .vint rt, .vstr ds, runv,
            .vtime stt, .vnone, .vint k, .vnone, .vnone, .vnone, .vint n⟩).toOption.bind
            (fun x => mgrObsView x.1 (.vint rt) (stringToDirection ds) k ⟨d, stt⟩)
          = some { run := runv, arrival := none, schedule := none,
                   offs := 0, ons := 0, load := 0 })
    ∧ (∀ (s : Stop) (dt : DT) (runv : PyVal) (arrival schedule : Option DT)
        (offs ons : PyVal),
        alookup s.data dt = none →
        s.addData dt runv arrival schedule offs ons
          = ({ s with
                data := aset dt
                  (Obs.mk runv arrival schedule (cleanNonneg offs) (cleanNonneg ons) 0)
                  s.data },
             true)) := by
  refine ⟨?_, ?_, ?_⟩
  · intro m prev sq rt d stt ds runv onbv stopv offv s hs
    by_cases hUN : stringToDirection ds = .UN
    · simp [processRow, stringToDirectionV, hUN]
    · cases onbv <;> simp [processRow, stringToDirectionV, hUN, hs]
  · intro m prev sq rt d stt ds r k s runv n hUN hm hr hd hneg
    have honsI : (if (0 : Int) ≤ n then n else 0) = 0 := by
      rw [if_neg]; omega
    constructor
    · simp [processRow, stringToDirectionV, hUN, RouteManager.addData, hm,
        Route.addData, hr, Stop.addData, hd, honsI, Except.toOption]
    · simp [processRow, stringToDirectionV, hUN, RouteManager.addData, hm,
        Route.addData, hr, Stop.addData, hd, honsI, mgrObsView, obsView,
        alookup_aset_self, Except.toOption, Option.bind]
  · intro s dt runv arrival schedule offs ons hd
    cases offs <;> cases ons <;> simp [Stop.addData, hd, cleanNonneg]

/-- Claim C5 (amended, witness): against the concrete manager, the
row with `ons = "x"` is rejected with the model unchanged, and the
row with `ons = -4` is accepted with `ons` stored as 0. -/
theorem c5_amended_witness :
    ("x" : String) ≠ ""
    ∧ processRow rmEx 0 rowOnsString = .ok (rmEx, 1, none)
    ∧ stringToDirection "NB" ≠ .UN
    ∧ (-4 : Int) < 0
    ∧ (processRow rmEx 0 rowOnsNeg).toOption.map (fun x => (x.2.1, x.2.2))
        = some (1, some true)
    ∧ (processRow rmEx 0 rowOnsNeg).toOption.bind
        (fun x => mgrObsView x.1 (.vint 5) (stringToDirection "NB") 100 ⟨1, 480⟩)
      = some { run := .vint 1, arrival := none, schedule := none,
               offs := 0, ons := 0, load := 0 } := by
  have hA := c5_amended_lenient.1 rmEx 0 1 5 1 480 "NB" (.vint 1) .vnone
    (.vint 100) .vnone "x" (by decide)
  have hB := c5_amended_lenient.2.1 rmEx 0 1 5 1 480 "NB" rEx5 100 sEx5
    (.vint 1) (-4) (by decide) rfl rfl rfl (by omega)
  exact ⟨by decide, hA, by decide, by decide, hB.1, hB.2⟩

-- Lemmas about `Stop.setLoad`: it only ever touches the `load` field
-- of the record at the written datetime.

theorem setLoad_getOffsAndOns (s : Stop) (dt dt' : DT) (v : Int) :
    (s.setLoad dt v).getOffsAndOns dt' = s.getOffsAndOns dt' := by
  by_cases hdt : dt' = dt
  · subst hdt
    cases h : alookup s.data dt' with
    | none => simp [Stop.setLoad, Stop.getOffsAndOns, h, alookup_aset_self]
    | some o => simp [Stop.setLoad, Stop.getOffsAndOns, h, alookup_aset_self]
  · cases h : alookup s.data dt with
    | none =>
      simp [Stop.setLoad, Stop.getOffsAndOns, h, alookup_aset_other _ _ _ _ hdt]
    | some o =>
      simp [Stop.setLoad, Stop.getOffsAndOns, h, alookup_aset_other _ _ _ _ hdt]

theorem setLoad_load (s : Stop) (dt : DT) (v : Int) :
    (alookup (s.setLoad dt v).data dt).map (fun o => o.load) = some v := by
  cases h : alookup s.data dt with
  | none => simp [Stop.setLoad, h, alookup_aset_self]
  | some o => simp [Stop.setLoad, h, alookup_aset_self]

theorem setLoad_other (s : Stop) (dt dt' : DT) (v : Int) (h : dt' ≠ dt) :
    alookup (s.setLoad dt v).data dt' = alookup s.data dt' := by
  cases h0 : alookup s.data dt with
  | none => simp [Stop.setLoad, h0, alookup_aset_other _ _ _ _ h]
  | some o => simp [Stop.setLoad, h0, alookup_aset_other _ _ _ _ h]

theorem setLoad_isSome (s : Stop) (dt dt' : DT) (v : Int)
    (h : (alookup s.data dt').isSome) :
    (alookup (s.setLoad dt v).data dt').isSome := by
  by_cases hdt : dt' = dt
  · subst hdt
    cases h0 : alookup s.data dt' with
    | none => simp [Stop.setLoad, h0, alookup_aset_self]
    | some o => simp [Stop.setLoad, h0, alookup_aset_self]
  · rw [setLoad_other s dt dt' v hdt]
    exact h

theorem setLoad_core (s : Stop) (dt dt' : DT) (v : Int) (o : Obs)
    (h : alookup s.data dt' = some o) :
    ∃ o', alookup (s.setLoad dt v).data dt' = some o'
      ∧ o'.run = o.run ∧ o'.arrival = o.arrival ∧ o'.schedule = o.schedule
      ∧ o'.offs = o.offs ∧ o'.ons = o.ons := by
  by_cases hdt : dt' = dt
  · subst hdt
    refine ⟨{ o with load := v }, ?_, rfl, rfl, rfl, rfl, rfl⟩
    simp [Stop.setLoad, h, alookup_aset_self]
  · exact ⟨o, by rw [setLoad_other s dt dt' v hdt]; exact h, rfl, rfl, rfl, rfl, rfl⟩

-- Lemmas about the inner propagation loop.

theorem offsOnsView_aset_setLoad (stops : List (Int × Stop)) (k k' : Int)
    (s : Stop) (dt dt'' : DT) (v : Int) (h : alookup stops k = some s) :
    offsOnsView (aset k (s.setLoad dt v) stops) k' dt'' = offsOnsView stops k' dt'' := by
  by_cases hk : k' = k
  · subst hk
    simp [offsOnsView, alookup_aset_self, h, setLoad_getOffsAndOns]
  · simp [offsOnsView, alookup_aset_other _ _ _ _ hk]

theorem propagateStops_keys (dt : DT) (ks : List Int) (cur : Int)
    (stops : List (Int × Stop)) :
    (propagateStops dt ks cur stops).map Prod.fst = stops.map Prod.fst := by
  induction ks generalizing cur stops with
  | nil => rfl
  | cons k ks ih =>
    cases h : alookup stops k with
    | none => simp [propagateStops, h, ih]
    | some s =>
      have hkeys : (aset k (s.setLoad dt (cur + (s.getOffsAndOns dt).2 -
          (s.getOffsAndOns dt).1)) stops).map Prod.fst = stops.map Prod.fst :=
        aset_keys _ _ _ (by simp [h])
      simp [propagateStops, h, ih, hkeys]

theorem propagateStops_offsOnsView (dt : DT) (ks : List Int) (cur : Int)
    (stops : List (Int × Stop)) (k' : Int) (dt'' : DT) :
    offsOnsView (propagateStops dt ks cur stops) k' dt'' = offsOnsView stops k' dt'' := by
  induction ks generalizing cur stops with
  | nil => rfl
  | cons k ks ih =>
    cases h : alookup stops k with
    | none => simp [propagateStops, h, ih]
    | some s =>
      simp [propagateStops, h, ih, offsOnsView_aset_setLoad _ _ _ _ _ _ _ h]

theorem obsView_aset_setLoad_other (stops : List (Int × Stop)) (k k' : Int)
    (s : Stop) (dt dt'' : DT) (v : Int)
    (h : alookup stops k = some s) (hne : dt'' ≠ dt) :
    obsView (aset k (s.setLoad dt v) stops) k' dt'' = obsView stops k' dt'' := by
  by_cases hk : k' = k
  · subst hk
    simp [obsView, alookup_aset_self, h, setLoad_other _ _ _ _ hne]
  · simp [obsView, alookup_aset_other _ _ _ _ hk]

theorem propagateStops_obsView_other (dt : DT) (ks : List Int) (cur : Int)
    (stops : List (Int × Stop)) (k' : Int) (dt'' : DT) (hne : dt'' ≠ dt) :
    obsView (propagateStops dt ks cur stops) k' dt'' = obsView stops k' dt'' := by
  induction ks generalizing cur stops with
  | nil => rfl
  | cons k ks ih =>
    cases h : alookup stops k with
    | none => simp [propagateStops, h, ih]
    | some s =>
      simp [propagateStops, h, ih, obsView_aset_setLoad_other _ _ _ _ _ _ _ h hne]

theorem propagateStops_core (dt : DT) (ks : List Int) (cur : Int)
    (stops : List (Int × Stop)) (k' : Int) (dt'' : DT) (o : Obs)
    (h : obsView stops k' dt'' = some o) :
    ∃ o', obsView (propagateStops dt ks cur stops) k' dt'' = some o'
      ∧ o'.run = o.run ∧ o'.arrival = o.arrival ∧ o'.schedule = o.schedule
      ∧ o'.offs = o.offs ∧ o'.ons = o.ons := by
  induction ks generalizing cur stops o with
  | nil => exact ⟨o, h, rfl, rfl, rfl, rfl, rfl⟩
  | cons k ks ih =>
    cases hk : alookup stops k with
    | none =>
      simp only [propagateStops, hk]
      exact ih _ _ _ h
    | some s =>
      simp only [propagateStops, hk]
      by_cases hkk : k' = k
      · subst hkk
        have hsdata : alookup s.data dt'' = some o := by
          simpa [obsView, hk] using h
        obtain ⟨o1, ho1, hrun, harr, hsch, hoffs, hons⟩ :=
          setLoad_core s dt dt'' (cur + (s.getOffsAndOns dt).2 - (s.getOffsAndOns dt).1) o hsdata
        obtain ⟨o2, ho2, h2run, h2arr, h2sch, h2offs, h2ons⟩ :=
          ih (cur + (s.getOffsAndOns dt).2 - (s.getOffsAndOns dt).1)
            (aset k' (s.setLoad dt (cur + (s.getOffsAndOns dt).2 - (s.getOffsAndOns dt).1)) stops)
            o1 (by simp [obsView, alookup_aset_self, ho1])
        exact ⟨o2, ho2, h2run.trans hrun, h2arr.trans harr, h2sch.trans hsch,
          h2offs.trans hoffs, h2ons.trans hons⟩
      · refine ih _ _ o ?_
        simpa [obsView, alookup_aset_other _ _ _ _ hkk] using h

theorem propagateStops_obsView_isSome (dt : DT) (ks : List Int) (cur : Int)
    (stops : List (Int × Stop)) (k' : Int) (dt'' : DT)
    (h : (obsView stops k' dt'').isSome) :
    (obsView (propagateStops dt ks cur stops) k' dt'').isSome := by
  obtain ⟨o, ho⟩ := Option.isSome_iff_exists.mp h
  obtain ⟨o', ho', _⟩ := propagateStops_core dt ks cur stops k' dt'' o ho
  simp [ho']

theorem setLoad_self_isSome (s : Stop) (dt : DT) (v : Int) :
    (alookup (s.setLoad dt v).data dt).isSome := by
  have h := setLoad_load s dt v
  cases h0 : alookup (s.setLoad dt v).data dt with
  | none => rw [h0] at h; simp at h
  | some o => simp

theorem aset_lookup_isSome [DecidableEq κ] (k k' : κ) (v : β) (l : List (κ × β))
    (h : (alookup l k').isSome) : (alookup (aset k v l) k').isSome := by
  by_cases hk : k' = k
  · subst hk; simp [alookup_aset_self]
  · rw [alookup_aset_other _ _ _ _ hk]; exact h

theorem mem_keys_of_alookup_isSome [DecidableEq κ] (l : List (κ × β)) (k : κ)
    (h : (alookup l k).isSome) : k ∈ l.map Prod.fst := by
  induction l with
  | nil => simp [alookup] at h
  | cons p l ih =>
    obtain ⟨k₀, v₀⟩ := p
    by_cases h0 : k = k₀
    · simp [h0]
    · have h' : (alookup l k).isSome := by
        simpa [alookup, h0] using h
      simp [ih h']

theorem propagateStops_creates (dt : DT) (ks : List Int) (cur : Int)
    (stops : List (Int × Stop)) (k : Int) (hk : k ∈ ks)
    (hs : (alookup stops k).isSome) :
    (obsView (propagateStops dt ks cur stops) k dt).isSome := by
  induction ks generalizing cur stops with
  | nil => cases hk
  | cons k0 ks ih =>
    cases hk0 : alookup stops k0 with
    | none =>
      simp only [propagateStops, hk0]
      rcases List.mem_cons.mp hk with rfl | hk'
      · rw [hk0] at hs; simp at hs
      · exact ih _ _ hk' hs
    | some s0 =>
      simp only [propagateStops, hk0]
      by_cases hkk : k = k0
      · subst hkk
        apply propagateStops_obsView_isSome
        simp [obsView, alookup_aset_self, setLoad_self_isSome]
      · rcases List.mem_cons.mp hk with rfl | hk'
        · exact absurd rfl hkk
        · refine ih _ _ hk' ?_
          rw [alookup_aset_other _ _ _ _ hkk]
          exact hs

theorem sumNet_congr (stops1 stops2 : List (Int × Stop)) (dt : DT) (keys : List Int)
    (h : ∀ k, offsOnsView stops1 k dt = offsOnsView stops2 k dt) :
    sumNet stops1 dt keys = sumNet stops2 dt keys := by
  simp [sumNet, h]

theorem loadView_eq (stops : List (Int × Stop)) (k : Int) (dt : DT) :
    loadView stops k dt = (obsView stops k dt).map (fun o => o.load) := by
  cases h : alookup stops k <;> simp [loadView, obsView, h]

theorem sumNet_cons (stops : List (Int × Stop)) (dt : DT) (k : Int) (ks : List Int) :
    sumNet stops dt (k :: ks)
      = ((offsOnsView stops k dt).2 - (offsOnsView stops k dt).1) + sumNet stops dt ks := by
  simp [sumNet]

theorem propagateStops_append_last_load (dt : DT) (ks0 : List Int) (k : Int)
    (cur : Int) (stops : List (Int × Stop)) (hs : (alookup stops k).isSome) :
    loadView (propagateStops dt (ks0 ++ [k]) cur stops) k dt
      = some (cur + sumNet stops dt (ks0 ++ [k])) := by
  induction ks0 generalizing cur stops with
  | nil =>
    obtain ⟨s, hs0⟩ := Option.isSome_iff_exists.mp hs
    simp only [List.nil_append, propagateStops, hs0]
    rw [loadView_eq]
    simp only [obsView, alookup_aset_self, Option.some_bind]
    rw [setLoad_load]
    rw [sumNet_cons]
    simp only [sumNet, List.map_nil, List.sum_nil, offsOnsView, hs0]
    congr 1
    ring
  | cons k0 ks0 ih =>
    rw [List.cons_append]
    rw [sumNet_cons]
    cases hk0 : alookup stops k0 with
    | none =>
      simp only [propagateStops, hk0]
      rw [ih cur stops hs]
      simp [offsOnsView, hk0]
    | some s0 =>
      simp only [propagateStops, hk0]
      have hs1 : (alookup (aset k0 (s0.setLoad dt (cur + (s0.getOffsAndOns dt).2 -
          (s0.getOffsAndOns dt).1)) stops) k).isSome :=
        aset_lookup_isSome _ _ _ _ hs
      rw [ih _ _ hs1]
      have hsum : sumNet (aset k0 (s0.setLoad dt (cur + (s0.getOffsAndOns dt).2 -
          (s0.getOffsAndOns dt).1)) stops) dt (ks0 ++ [k]) = sumNet stops dt (ks0 ++ [k]) :=
        sumNet_congr _ _ _ _ (fun k' => offsOnsView_aset_setLoad _ _ _ _ _ _ _ hk0)
    
      rw [hsum]
      simp only [offsOnsView, hk0]
      congr 1
      ring

-- Lemmas lifting the propagation facts through the outer loop of
-- `buildLoad` (the fold of `Route.stepDT` over the visiting order).

theorem stepDT_stops_keys (r : Route) (dt : DT) :
    (r.stepDT dt).stops.map Prod.fst = r.stops.map Prod.fst :=
  propagateStops_keys dt r.sortedStopKeys (r.onboardAt dt) r.stops

theorem stepDT_offsOnsView (r : Route) (dt : DT) (k : Int) (dt'' : DT) :
    offsOnsView (r.stepDT dt).stops k dt'' = offsOnsView r.stops k dt'' :=
  propagateStops_offsOnsView dt r.sortedStopKeys (r.onboardAt dt) r.stops k dt''

theorem stepDT_obsView_other (r : Route) (dt : DT) (k : Int) (dt'' : DT)
    (hne : dt'' ≠ dt) :
    obsView (r.stepDT dt).stops k dt'' = obsView r.stops k dt'' :=
  propagateStops_obsView_other dt r.sortedStopKeys (r.onboardAt dt) r.stops k dt'' hne

theorem foldl_stepDT_times (l : List DT) (r : Route) :
    (l.foldl Route.stepDT r).times = r.times := by
  induction l generalizing r with
  | nil => rfl
  | cons dt l ih => rw [List.foldl_cons, ih]; rfl

theorem foldl_stepDT_onboard (l : List DT) (r : Route) :
    (l.foldl Route.stepDT r).onboard = r.onboard := by
  induction l generalizing r with
  | nil => rfl
  | cons dt l ih => rw [List.foldl_cons, ih]; rfl

theorem foldl_stepDT_keys (l : List DT) (r : Route) :
    (l.foldl Route.stepDT r).stops.map Prod.fst = r.stops.map Prod.fst := by
  induction l generalizing r with
  | nil => rfl
  | cons dt l ih => rw [List.foldl_cons, ih, stepDT_stops_keys]

theorem foldl_stepDT_offsOnsView (l : List DT) (r : Route) (k : Int) (dt'' : DT) :
    offsOnsView (l.foldl Route.stepDT r).stops k dt'' = offsOnsView r.stops k dt'' := by
  induction l generalizing r with
  | nil => rfl
  | cons dt l ih => rw [List.foldl_cons, ih, stepDT_offsOnsView]

theorem foldl_stepDT_obsView_notmem (l : List DT) (r : Route) (k : Int) (dt'' : DT)
    (h : dt'' ∉ l) :
    obsView (l.foldl Route.stepDT r).stops k dt'' = obsView r.stops k dt'' := by
  induction l generalizing r with
  | nil => rfl
  | cons dt l ih =>
    have h1 : dt'' ≠ dt := fun he => h (he ▸ List.mem_cons_self dt l)
    have h2 : dt'' ∉ l := fun hm => h (List.mem_cons_of_mem dt hm)
    rw [List.foldl_cons, ih _ h2, stepDT_obsView_other _ _ _ _ h1]

theorem foldl_stepDT_core (l : List DT) (r : Route) (k : Int) (dt'' : DT) (o : Obs)
    (h : obsView r.stops k dt'' = some o) :
    ∃ o', obsView (l.foldl Route.stepDT r).stops k dt'' = some o'
      ∧ o'.run = o.run ∧ o'.arrival = o.arrival ∧ o'.schedule = o.schedule
      ∧ o'.offs = o.offs ∧ o'.ons = o.ons := by
  induction l generalizing r o with
  | nil => exact ⟨o, h, rfl, rfl, rfl, rfl, rfl⟩
  | cons dt l ih =>
    obtain ⟨o1, ho1, h1run, h1arr, h1sch, h1offs, h1ons⟩ :=
      propagateStops_core dt r.sortedStopKeys (r.onboardAt dt) r.stops k dt'' o h
    obtain ⟨o2, ho2, h2run, h2arr, h2sch, h2offs, h2ons⟩ := ih (r.stepDT dt) o1 ho1
    exact ⟨o2, ho2, h2run.trans h1run, h2arr.trans h1arr, h2sch.trans h1sch,
      h2offs.trans h1offs, h2ons.trans h1ons⟩

theorem foldl_stepDT_obsView_isSome (l : List DT) (r : Route) (k : Int) (dt'' : DT)
    (h : (obsView r.stops k dt'').isSome) :
    (obsView (l.foldl Route.stepDT r).stops k dt'').isSome := by
  obtain ⟨o, ho⟩ := Option.isSome_iff_exists.mp h
  obtain ⟨o', ho', _⟩ := foldl_stepDT_core l r k dt'' o ho
  simp [ho']

theorem getLastD_eq_getLast (l : List α) (hne : l ≠ []) (d : α) :
    l.getLastD d = l.getLast hne := by
  induction l generalizing d with
  | nil => exact absurd rfl hne
  | cons a l ih =>
    cases l with
    | nil => rfl
    | cons b l' => exact ih (by simp) a

theorem getLast_is_ub (le : α → α → Bool) (hrefl : ∀ x, le x x = true)
    (l : List α) (hp : l.Pairwise (fun a b => le a b = true)) (hne : l ≠ [])
    (x : α) (hx : x ∈ l) : le x (l.getLast hne) = true := by
  induction l with
  | nil => exact absurd rfl hne
  | cons a l ih =>
    obtain ⟨ha, hp'⟩ := List.pairwise_cons.mp hp
    cases l with
    | nil =>
      have hxa : x = a := by simpa using hx
      subst hxa
      exact hrefl x
    | cons b l' =>
      rcases List.mem_cons.mp hx with hxa | hx'
      · subst hxa
        exact ha _ (List.getLast_mem (by simp))
      · exact ih hp' (by simp) hx'

/-- Claim C1: after `Route.buildLoad`, the load recorded at the
highest-numbered stop (the last of the ascending stop-number sweep)
for any departure equals the departure's onboard value (0 when
absent) plus the sum over all the route's stops, in ascending
stop-number order, of that departure's ons minus offs — 0/0 standing
in for stops with no observation. -/
theorem c1_load_conservation (r : Route) (dt : DT)
    (hne : r.stops ≠ []) (hdt : dt ∈ r.times) (hnd : r.times.Nodup) :
    (Route.sortedStopKeys r).getLastD 0 ∈ r.stops.map Prod.fst
    ∧ (∀ k ∈ r.stops.map Prod.fst, k ≤ (Route.sortedStopKeys r).getLastD 0)
    ∧ loadView r.buildLoad.stops ((Route.sortedStopKeys r).getLastD 0) dt
        = some (r.onboardAt dt + sumNet r.stops dt (Route.sortedStopKeys r)) := by
  have hperm : (Route.sortedStopKeys r).Perm (r.stops.map Prod.fst) :=
    insSort_perm _ _
  have hmapne : r.stops.map Prod.fst ≠ [] := by
    intro h
    exact hne (List.map_eq_nil_iff.mp h)
  have hkne : Route.sortedStopKeys r ≠ [] := by
    intro h
    apply hmapne
    have := hperm.length_eq
    rw [h] at this
    exact List.length_eq_zero.mp this.symm
  have hlastD : (Route.sortedStopKeys r).getLastD 0 = (Route.sortedStopKeys r).getLast hkne :=
    getLastD_eq_getLast _ hkne _
  have hkmem : (Route.sortedStopKeys r).getLastD 0 ∈ Route.sortedStopKeys r := by
    rw [hlastD]
    exact List.getLast_mem hkne
  refine ⟨hperm.mem_iff.mp hkmem, ?_, ?_⟩
  · intro k hk
    have hk' : k ∈ Route.sortedStopKeys r := hperm.mem_iff.mpr hk
    have hpair : (Route.sortedStopKeys r).Pairwise (fun a b => intLe a b = true) :=
      pairwise_insSort _ intLe_total intLe_trans _
    have hle := getLast_is_ub intLe (fun x => by simp [intLe]) _ hpair hkne k hk'
    rw [hlastD]
    simpa [intLe] using hle
  · have horder : dt ∈ r.buildLoadOrder :=
      ((insSort_perm DT.leDT r.times).mem_iff).mpr hdt
    have hndord : r.buildLoadOrder.Nodup :=
      ((insSort_perm DT.leDT r.times).nodup_iff).mpr hnd
    obtain ⟨l1, l2, hsplit⟩ := List.append_of_mem horder
    have hnotl2 : dt ∉ l2 := by
      rw [hsplit] at hndord
      have h2 : (dt :: l2).Nodup :=
        hndord.sublist (List.sublist_append_right l1 (dt :: l2))
      exact (List.nodup_cons.mp h2).1
    have hbuild : r.buildLoad = (l1 ++ dt :: l2).foldl Route.stepDT r := by
      rw [show r.buildLoad = r.buildLoadOrder.foldl Route.stepDT r from rfl, hsplit]
    rw [hbuild, List.foldl_append, List.foldl_cons]
    have hkeys1 : (l1.foldl Route.stepDT r).stops.map Prod.fst = r.stops.map Prod.fst :=
      foldl_stepDT_keys l1 r
    have honb : (l1.foldl Route.stepDT r).onboard = r.onboard :=
      foldl_stepDT_onboard l1 r
    have hsortkeys1 : (l1.foldl Route.stepDT r).sortedStopKeys = Route.sortedStopKeys r := by
      simp only [Route.sortedStopKeys, hkeys1]
    have hkd : Route.sortedStopKeys r
        = (Route.sortedStopKeys r).dropLast ++ [(Route.sortedStopKeys r).getLastD 0] := by
      rw [hlastD]
      exact (List.dropLast_append_getLast hkne).symm
    have hsome : (alookup (l1.foldl Route.stepDT r).stops
        ((Route.sortedStopKeys r).getLastD 0)).isSome := by
      apply alookup_isSome_of_mem_keys
      rw [hkeys1]
      exact hperm.mem_iff.mp hkmem
    have hmain : loadView ((l1.foldl Route.stepDT r).stepDT dt).stops
        ((Route.sortedStopKeys r).getLastD 0) dt
        = some ((l1.foldl Route.stepDT r).onboardAt dt
            + sumNet (l1.foldl Route.stepDT r).stops dt (Route.sortedStopKeys r)) := by
      have happ := propagateStops_append_last_load dt (Route.sortedStopKeys r).dropLast
        ((Route.sortedStopKeys r).getLastD 0) ((l1.foldl Route.stepDT r).onboardAt dt)
        (l1.foldl Route.stepDT r).stops hsome
      rw [← hkd] at happ
      show loadView (propagateStops dt (l1.foldl Route.stepDT r).sortedStopKeys
        ((l1.foldl Route.stepDT r).onboardAt dt) (l1.foldl Route.stepDT r).stops)
        ((Route.sortedStopKeys r).getLastD 0) dt = _
      rw [hsortkeys1]
      exact happ
    have hl2 : loadView (l2.foldl Route.stepDT ((l1.foldl Route.stepDT r).stepDT dt)).stops
        ((Route.sortedStopKeys r).getLastD 0) dt
        = loadView ((l1.foldl Route.stepDT r).stepDT dt).stops
            ((Route.sortedStopKeys r).getLastD 0) dt := by
      rw [loadView_eq, loadView_eq, foldl_stepDT_obsView_notmem l2 _ _ _ hnotl2]
    rw [hl2, hmain]
    have honbAt : (l1.foldl Route.stepDT r).onboardAt dt = r.onboardAt dt := by
      simp [Route.onboardAt, honb]
    rw [honbAt, sumNet_congr (l1.foldl Route.stepDT r).stops r.stops dt _
      (fun k => foldl_stepDT_offsOnsView l1 r k dt)]

/-- Claim C1 (witness): the specification's worked scenario — route
5 NB, stops 100 and 200, onboard 2, stop 100 ons 3, stop 200 offs 5 —
has load 2 + 3 − 5 = 0 recorded at the highest stop 200 after
propagation. -/
theorem c1_witness :
    routeC1.stops ≠ []
    ∧ (⟨1, 480⟩ : DT) ∈ routeC1.times
    ∧ routeC1.times.Nodup
    ∧ (Route.sortedStopKeys routeC1).getLastD 0 ∈ routeC1.stops.map Prod.fst
    ∧ loadView routeC1.buildLoad.stops ((Route.sortedStopKeys routeC1).getLastD 0) ⟨1, 480⟩
        = some (routeC1.onboardAt ⟨1, 480⟩
            + sumNet routeC1.stops ⟨1, 480⟩ (Route.sortedStopKeys routeC1))
    ∧ loadView routeC1.buildLoad.stops 200 ⟨1, 480⟩ = some 0 := by
  have h := c1_load_conservation routeC1 ⟨1, 480⟩ (by decide) (by decide) (by decide)
  exact ⟨by decide, by decide, by decide, h.1, h.2.2, by decide⟩

/-- Claim C9 (amended): load propagation never changes the `run`,
`arrival_time`, `schedule_time`, `offs` or `ons` of an existing
observation record (only `load`), and it writes a load for every
stop and every registered departure of the route — creating a
placeholder record (`run`/`arrival`/`schedule` absent, `offs = ons =
0`) for each stop that has no observation for that departure, so
records may exist after propagation that ingestion never created. -/
theorem c9_amended_frame :
    (∀ (r : Route) (k : Int) (dt : DT) (o : Obs),
        obsView r.stops k dt = some o →
        ∃ o', obsView r.buildLoad.stops k dt = some o'
          ∧ o'.run = o.run ∧ o'.arrival = o.arrival ∧ o'.schedule = o.schedule
          ∧ o'.offs = o.offs ∧ o'.ons = o.ons)
    ∧ (∀ (r : Route) (k : Int) (dt : DT),
        (alookup r.stops k).isSome → dt ∈ r.times →
        (obsView r.buildLoad.stops k dt).isSome) := by
  constructor
  · intro r k dt o h
    exact foldl_stepDT_core r.buildLoadOrder r k dt o h
  · intro r k dt hs hdt
    have horder : dt ∈ r.buildLoadOrder :=
      ((insSort_perm DT.leDT r.times).mem_iff).mpr hdt
    obtain ⟨l1, l2, hsplit⟩ := List.append_of_mem horder
    have hbuild : r.buildLoad = (l1 ++ dt :: l2).foldl Route.stepDT r := by
      rw [show r.buildLoad = r.buildLoadOrder.foldl Route.stepDT r from rfl, hsplit]
    rw [hbuild, List.foldl_append, List.foldl_cons]
    apply foldl_stepDT_obsView_isSome
    have hkmem : k ∈ (l1.foldl Route.stepDT r).stops.map Prod.fst := by
      rw [foldl_stepDT_keys]
      exact mem_keys_of_alookup_isSome _ _ hs
    show (obsView (propagateStops dt (l1.foldl Route.stepDT r).sortedStopKeys
      ((l1.foldl Route.stepDT r).onboardAt dt) (l1.foldl Route.stepDT r).stops) k dt).isSome
    apply propagateStops_creates
    · exact ((insSort_perm intLe _).mem_iff).mpr hkmem
    · exact alookup_isSome_of_mem_keys _ _ hkmem

/-- Claim C9 (amended, witness): in the concrete route with an
observation only at stop 100, propagation preserves the non-load
fields of that observation and creates a record at stop 200 for the
same departure. -/
theorem c9_amended_witness :
    obsView routeC9base.stops 100 ⟨1, 480⟩ = some oC9
    ∧ (∃ o', obsView routeC9base.buildLoad.stops 100 ⟨1, 480⟩ = some o'
        ∧ o'.run = oC9.run ∧ o'.arrival = oC9.arrival ∧ o'.schedule = oC9.schedule
        ∧ o'.offs = oC9.offs ∧ o'.ons = oC9.ons)
    ∧ (alookup routeC9base.stops 200).isSome
    ∧ (⟨1, 480⟩ : DT) ∈ routeC9base.times
    ∧ (obsView routeC9base.buildLoad.stops 200 ⟨1, 480⟩).isSome := by
  refine ⟨rfl, c9_amended_frame.1 routeC9base 100 ⟨1, 480⟩ oC9 rfl, by decide, by decide,
    c9_amended_frame.2 routeC9base 200 ⟨1, 480⟩ (by decide) (by decide)⟩

-- Lemmas for the Max-Load-by-Time grouping.

theorem leTD_time_le {a b : DT} (h : DT.leTD a b = true) : a.time ≤ b.time := by
  simp only [DT.leTD, Bool.or_eq_true, Bool.and_eq_true, decide_eq_true_eq] at h
  omega

theorem leTD_time_strict {a b : DT} (h : DT.leTD a b = true) (hne : b.time ≠ a.time) :
    a.time < b.time := by
  simp only [DT.leTD, Bool.or_eq_true, Bool.and_eq_true, decide_eq_true_eq] at h
  omega

theorem dropWhile_time_strict (dt : DT) (rest : List DT)
    (hd : ∀ d ∈ rest, DT.leTD dt d = true)
    (hp : rest.Pairwise (fun a b => DT.leTD a b = true)) :
    ∀ d ∈ rest.dropWhile (fun x => x.time == dt.time), dt.time < d.time := by
  induction rest with
  | nil => intro d hmem; simp [List.dropWhile] at hmem
  | cons r0 rs ih =>
    intro d hmem
    obtain ⟨h0d, hp'⟩ := List.pairwise_cons.mp hp
    by_cases h0 : (r0.time == dt.time) = true
    · simp only [List.dropWhile_cons, h0, if_true] at hmem
      exact ih (fun d hd' => hd d (List.mem_cons_of_mem r0 hd')) hp' d hmem
    · simp only [List.dropWhile_cons, h0, Bool.false_eq_true, if_false] at hmem
      have hr0 : dt.time < r0.time := by
        apply leTD_time_strict (hd r0 (List.mem_cons_self r0 rs))
        simpa using h0
      rcases List.mem_cons.mp hmem with hdr | hdr
      · subst hdr; exact hr0
      · have := leTD_time_le (h0d d hdr)
        omega

theorem takeWhile_time_eq (dt : DT) (rest : List DT) :
    ∀ d ∈ rest.takeWhile (fun x => x.time == dt.time), d.time = dt.time := by
  intro d hmem
  have := List.mem_takeWhile_imp hmem
  simpa using this

theorem getLastD_time_const (c : Nat) (a : DT) (l : List DT)
    (ha : a.time = c) (hl : ∀ d ∈ l, d.time = c) (z : DT) :
    ((a :: l).getLastD z).time = c := by
  induction l generalizing a z with
  | nil => simpa using ha
  | cons b l ih =>
    rw [List.getLastD_cons]
    exact ih b (hl b (List.mem_cons_self b l)) (fun d hd => hl d (List.mem_cons_of_mem b hd)) a

theorem groupRow_timeOfDay (r : Route) (grp : List DT) :
    (r.groupRow grp).timeOfDay = (grp.getLastD ⟨0, 0⟩).time := rfl

theorem foldMax_nonneg (cells : List (Int × Int × Int)) (m : Int) (hm : 0 ≤ m) :
    0 ≤ cells.foldl (fun m c => if c.2.2 > m then c.2.2 else m) m := by
  induction cells generalizing m with
  | nil => exact hm
  | cons c cells ih =>
    rw [List.foldl_cons]
    by_cases h : c.2.2 > m
    · simp only [h, if_true]
      exact ih _ (le_of_lt (lt_of_le_of_lt hm h))
    · simp only [h, if_false]
      exact ih _ hm

theorem buildTotalsByTimeAux_filter (r : Route) (fuel : Nat) :
    ∀ (l : List DT), l.length ≤ fuel → timesSortedTD l → ∀ t : Nat,
    (r.buildTotalsByTimeAux fuel l).filter (fun row => row.timeOfDay == t)
      = if l.any (fun d => d.time == t)
        then [r.groupRow (l.filter (fun d => d.time == t))] else [] := by
  induction fuel with
  | zero =>
    intro l hlen hsort t
    cases l with
    | nil => simp [Route.buildTotalsByTimeAux]
    | cons dt rest => simp at hlen
  | succ fuel ih =>
    intro l hlen hsort t
    cases l with
    | nil => simp [Route.buildTotalsByTimeAux]
    | cons dt rest =>
      obtain ⟨hd, hp'⟩ := List.pairwise_cons.mp hsort
      have hstrict : ∀ d ∈ rest.dropWhile (fun x => x.time == dt.time), dt.time < d.time :=
        dropWhile_time_strict dt rest hd hp'
      have htake : ∀ d ∈ rest.takeWhile (fun x => x.time == dt.time), d.time = dt.time :=
        takeWhile_time_eq dt rest
      have hsplit : rest.takeWhile (fun x => x.time == dt.time)
          ++ rest.dropWhile (fun x => x.time == dt.time) = rest :=
        List.takeWhile_append_dropWhile _ _
      have hlen' : (rest.dropWhile (fun x => x.time == dt.time)).length ≤ fuel := by
        have h1 := (List.dropWhile_sublist (fun x => x.time == dt.time) (l := rest)).length_le
        simp only [List.length_cons] at hlen
        omega
      have hsort' : timesSortedTD (rest.dropWhile (fun x => x.time == dt.time)) :=
        List.Pairwise.sublist (List.dropWhile_sublist _) hp'
      have hrowt : (r.groupRow (dt :: rest.takeWhile (fun x => x.time == dt.time))).timeOfDay
          = dt.time := by
        rw [groupRow_timeOfDay]
        exact getLastD_time_const dt.time dt _ rfl htake _
      have hrec := ih (rest.dropWhile (fun x => x.time == dt.time)) hlen' hsort' t
      show ((r.groupRow (dt :: rest.takeWhile (fun d => d.time == dt.time)) ::
          r.buildTotalsByTimeAux fuel (rest.dropWhile (fun d => d.time == dt.time))).filter
          (fun row => row.timeOfDay == t)) = _
      rw [List.filter_cons]
      by_cases ht : dt.time = t
      · subst ht
        have hcond : ((r.groupRow (dt :: rest.takeWhile
            (fun d => d.time == dt.time))).timeOfDay == dt.time) = true := by
          rw [hrowt]
          simp
        rw [if_pos hcond]
        have hanyrec : (rest.dropWhile (fun x => x.time == dt.time)).any
            (fun d => d.time == dt.time) = false := by
          rw [List.any_eq_false]
          intro d hdmem
          have := hstrict d hdmem
          simp only [beq_iff_eq]
          omega
        rw [hrec, if_neg (by rw [hanyrec]; simp)]
        have hanytop : (dt :: rest).any (fun d => d.time == dt.time) = true := by
          simp
        rw [if_pos hanytop]
        have hfiltake : (rest.takeWhile (fun x => x.time == dt.time)).filter
            (fun d => d.time == dt.time) = rest.takeWhile (fun x => x.time == dt.time) := by
          rw [List.filter_eq_self]
          intro d hdmem
          simp only [beq_iff_eq]
          exact htake d hdmem
        have hfildrop : (rest.dropWhile (fun x => x.time == dt.time)).filter
            (fun d => d.time == dt.time) = [] := by
          rw [List.filter_eq_nil_iff]
          intro d hdmem
          have := hstrict d hdmem
          simp only [beq_iff_eq]
          omega
        have hfilter : (dt :: rest).filter (fun d => d.time == dt.time)
            = dt :: rest.takeWhile (fun x => x.time == dt.time) := by
          rw [List.filter_cons, if_pos (by simp)]
          congr 1
          conv_lhs => rw [← hsplit]
          rw [List.filter_append, hfiltake, hfildrop, List.append_nil]
        rw [hfilter]
      · have hcond : ((r.groupRow (dt :: rest.takeWhile
            (fun d => d.time == dt.time))).timeOfDay == t) = false := by
          rw [hrowt]
          simpa using ht
        rw [if_neg (by rw [hcond]; simp), hrec]
        have hanytake : (rest.takeWhile (fun x => x.time == dt.time)).any
            (fun d => d.time == t) = false := by
          rw [List.any_eq_false]
          intro d hdmem
          have := htake d hdmem
          simp only [beq_iff_eq]
          omega
        have hfiltake : (rest.takeWhile (fun x => x.time == dt.time)).filter
            (fun d => d.time == t) = [] := by
          rw [List.filter_eq_nil_iff]
          intro d hdmem
          have := htake d hdmem
          simp only [beq_iff_eq]
          omega
        have hanytop : (dt :: rest).any (fun d => d.time == t)
            = (rest.dropWhile (fun x => x.time == dt.time)).any (fun d => d.time == t) := by
          rw [List.any_cons]
          conv_lhs => rw [← hsplit]
          rw [List.any_append, hanytake]
          simp [ht]
        have hfiltop : (dt :: rest).filter (fun d => d.time == t)
            = (rest.dropWhile (fun x => x.time == dt.time)).filter (fun d => d.time == t) := by
          rw [List.filter_cons, if_neg (by simpa using ht)]
          conv_lhs => rw [← hsplit]
          rw [List.filter_append, hfiltake, List.nil_append]
        rw [hanytop, hfiltop]

/-- Claim C7 (amended): `Route.addData` keeps the departure list
sorted by (time-of-day, date) whatever the ingestion order; on such a
list, `buildTotalsByTime` emits exactly one row per distinct
time-of-day — the row for time `t` is the single row built from all
the departures of every date sharing that clock time, carrying their
summed ons and offs and, as Max Load, the maximum of 0 and the loads
observed within the group (its value never drops below 0, even when
every observed load is negative). -/
theorem c7_amended_grouping :
    (∀ (r : Route) (stop_no : PyVal) (dt : DT) (run : PyVal)
        (arrival schedule : Option DT) (offs ons : PyVal) (onboard : Option Int),
        timesSortedTD r.times →
        timesSortedTD ((r.addData stop_no dt run arrival schedule offs ons onboard).1).times)
    ∧ (∀ (r : Route), timesSortedTD r.times → ∀ t : Nat,
        r.buildTotalsByTime.filter (fun row => row.timeOfDay == t)
          = if r.times.any (fun d => d.time == t)
            then [r.groupRow (r.times.filter (fun d => d.time == t))] else [])
    ∧ (∀ (r : Route) (grp : List DT), 0 ≤ (r.groupRow grp).maxLoad) := by
  refine ⟨?_, ?_, ?_⟩
  · intro r stop_no dt run arrival schedule offs ons onboard hsort
    cases stop_no with
    | vint k =>
      cases hk : alookup r.stops k with
      | none => simpa [Route.addData, hk] using hsort
      | some s =>
        rcases h2 : s.addData dt run arrival schedule offs ons with ⟨s', ok⟩
        by_cases hdt : dt ∈ r.times
        · simpa [Route.addData, hk, h2, hdt] using hsort
        · simp only [Route.addData, hk, h2, hdt, if_false, timesSortedTD]
          exact pairwise_insSort _ leTD_total leTD_trans _
    | vstr s => simpa [Route.addData] using hsort
    | vdate d => simpa [Route.addData] using hsort
    | vtime t0 => simpa [Route.addData] using hsort
    | vnone => simpa [Route.addData] using hsort
  · intro r hsort t
    exact buildTotalsByTimeAux_filter r r.times.length r.times (le_refl _) hsort t
  · intro r grp
    exact foldMax_nonneg _ 0 le_rfl

/-- Claim C7 (amended, witness): the concrete route with departures
08:00 on days 1 and 8 yields exactly one Max-Load row for 08:00 with
ons 2+3, offs 0+1 and max load 2 across both dates. -/
theorem c7_amended_witness :
    timesSortedTD routeC7grp.times
    ∧ routeC7grp.buildTotalsByTime.filter (fun row => row.timeOfDay == 480)
        = [routeC7grp.groupRow (routeC7grp.times.filter (fun d => d.time == 480))]
    ∧ routeC7grp.buildTotalsByTime = [MLRow.mk (.vint 5) 480 5 1 2]
    ∧ 0 ≤ (routeC7grp.groupRow [⟨1, 480⟩, ⟨8, 480⟩]).maxLoad
    ∧ timesSortedTD ((routeOneStop.addData (.vint 100) ⟨1, 480⟩ (.vint 1) none none
        (.vint 0) (.vint 2) none).1).times := by
  have h2 := c7_amended_grouping.2.1 routeC7grp (by decide) 480
  have h1 := c7_amended_grouping.1 routeOneStop (.vint 100) ⟨1, 480⟩ (.vint 1)
    none none (.vint 0) (.vint 2) none (by decide)
  have h3 := c7_amended_grouping.2.2 routeC7grp [⟨1, 480⟩, ⟨8, 480⟩]
  refine ⟨by decide, ?_, by decide, h3, h1⟩
  rw [h2, if_pos (by decide)]

/-- Claim C10 (counterexample): `generateSummary` can raise
`TypeError` instead of returning any status.  First input: both
sources open, the save would fail, and one ride-checks row has the
string "A7" in its sequence cell — ingestion raises where the claim
requires the return of 2.  Second input: both sources open, the save
would succeed, ingestion is clean, but the ROUTE marker row's name
cell is empty, so the report phase slices a `None` descriptor
(line 469 via line 184) and raises before the save — where the claim
requires the return of 0. -/
theorem c10_counterexample :
    generateSummary (some [rowSeqString]) (some []) false = .error .typeError
    ∧ (∀ n : Nat, generateSummary (some [rowSeqString]) (some []) false ≠ .ok n)
    ∧ generateSummary (some []) (some busSheetNoName) true = .error .typeError
    ∧ (∀ n : Nat, generateSummary (some []) (some busSheetNoName) true ≠ .ok n) := by
  have he1 : generateSummary (some [rowSeqString]) (some []) false
      = .error .typeError := rfl
  have he2 : generateSummary (some []) (some busSheetNoName) true
      = .error .typeError := rfl
  refine ⟨he1, ?_, he2, ?_⟩
  · intro n h
    rw [he1] at h
    exact Except.noConfusion h
  · intro n h
    rw [he2] at h
    exact Except.noConfusion h

/-- Claim C10 (amended): whenever `generateSummary` returns a status
— it can instead raise `TypeError`, either from the sequence check
during ingestion or from the report phase (a non-string route
descriptor, or route keys of mixed types) — that status is 0, 1 or 2;
when either input fails to open it returns 1 if the log-only output
saves and 2 otherwise; whenever the save fails, any returned status
is 2; and when both inputs open, ingestion and the report builders
all complete without raising and the save succeeds, it returns 0 —
row-level rejections and warnings never change that. -/
theorem c10_amended_status (ride : Option (List Row)) (bus : Option (List BusRow))
    (saveOk : Bool) :
    (∀ n, generateSummary ride bus saveOk = .ok n → n = 0 ∨ n = 1 ∨ n = 2)
    ∧ ((ride = none ∨ bus = none) →
        generateSummary ride bus saveOk = .ok (if saveOk then 1 else 2))
    ∧ (saveOk = false → ∀ n, generateSummary ride bus saveOk = .ok n → n = 2)
    ∧ (∀ rows busRows m m2 rts mls, ride = some rows → bus = some busRows →
        ingestBus busRows = .ok m → processRows m 0 rows = .ok m2 →
        m2.buildLoad.buildRouteTotals = .ok rts →
        m2.buildLoad.buildMaxLoads = .ok mls →
        saveOk = true → generateSummary ride bus saveOk = .ok 0) := by
  refine ⟨?_, ?_, ?_, ?_⟩
  · intro n h
    cases ride with
    | none =>
      simp [generateSummary] at h
      cases saveOk <;> simp at h <;> omega
    | some rows =>
      cases bus with
      | none =>
        simp [generateSummary] at h
        cases saveOk <;> simp at h <;> omega
      | some busRows =>
        cases hi : ingestBus busRows with
        | error e => simp [generateSummary, hi, Bind.bind, Except.bind] at h
        | ok m =>
          cases hp : processRows m 0 rows with
          | error e => simp [generateSummary, hi, hp, Bind.bind, Except.bind] at h
          | ok m2 =>
            cases hbt : m2.buildLoad.buildRouteTotals with
            | error e =>
              simp [generateSummary, hi, hp, hbt, Bind.bind, Except.bind] at h
            | ok rts =>
              cases hml : m2.buildLoad.buildMaxLoads with
              | error e =>
                simp [generateSummary, hi, hp, hbt, hml, Bind.bind, Except.bind] at h
              | ok mls =>
                simp [generateSummary, hi, hp, hbt, hml, Bind.bind, Except.bind,
                  Pure.pure, Except.pure] at h
                cases saveOk <;> simp at h <;> omega
  · intro hor
    rcases hor with h | h
    · subst h; rfl
    · subst h; cases ride <;> rfl
  · intro hs n h
    subst hs
    cases ride with
    | none => simp [generateSummary] at h; omega
    | some rows =>
      cases bus with
      | none => simp [generateSummary] at h; omega
      | some busRows =>
        cases hi : ingestBus busRows with
        | error e => simp [generateSummary, hi, Bind.bind, Except.bind] at h
        | ok m =>
          cases hp : processRows m 0 rows with
          | error e => simp [generateSummary, hi, hp, Bind.bind, Except.bind] at h
          | ok m2 =>
            cases hbt : m2.buildLoad.buildRouteTotals with
            | error e =>
              simp [generateSummary, hi, hp, hbt, Bind.bind, Except.bind] at h
            | ok rts =>
              cases hml : m2.buildLoad.buildMaxLoads with
              | error e =>
                simp [generateSummary, hi, hp, hbt, hml, Bind.bind, Except.bind] at h
              | ok mls =>
                simp [generateSummary, hi, hp, hbt, hml, Bind.bind, Except.bind,
                  Pure.pure, Except.pure] at h
                omega
  · intro rows busRows m m2 rts mls hr hb hi hp hbt hml hs
    subst hr; subst hb; subst hs
    simp [generateSummary, hi, hp, hbt, hml, Bind.bind, Except.bind,
      Pure.pure, Except.pure]

/-- Claim C10 (amended, witness): with the ride-checks source failing
to open the run returns 1; a full run over the concrete sheet — with
an out-of-order (warned) row, a rejected row, and both report
builders succeeding — returns 0. -/
theorem c10_amended_witness :
    generateSummary none (some busSheetEx) true = .ok (if true then 1 else 2)
    ∧ generateSummary (some [rowOutOfOrder, rowOnsString]) (some busSheetEx) true
        = .ok 0 := by
  refine ⟨(c10_amended_status none (some busSheetEx) true).2.1 (Or.inl rfl), ?_⟩
  exact (c10_amended_status (some [rowOutOfOrder, rowOnsString]) (some busSheetEx)
    true).2.2.2 [rowOutOfOrder, rowOnsString] busSheetEx mEx10 mEx10After
    rtsEx10 mlsEx10 rfl rfl rfl rfl rfl rfl rfl
